import Mathlib

/-!
Shallow embedding of the recursive-descent parser in `src/parser.cpp`
(an early-stage compiler's parser and AST printer).

The token stream, the AST node type and every `ast_parse_*` function are
translated directly from the C++ source.  Control flow is modelled with
`Except`: where the C++ calls `ast_error` / `ast_invalid_token_error`
(which print a diagnostic and `exit`), the embedding returns
`Except.error` carrying the same 1-based position and message text.
The mutable token cursor (`int *token_index`) becomes explicit index
passing, and the mutable pending-directive slot
(`pc->directive_list`, a possibly-null list) becomes an explicit
`Option (List AstNode)` threaded through the declaration layer.
C `assert` failures are modelled as a distinguished error value.

The C++ functions recurse through unbounded loops (`for (;;)`) and
mutual descent; the embedding gives every such function a `fuel`
parameter, decremented at each entry, with a distinguished error when
it runs out.  Running out of fuel is an artifact of the embedding: any
theorem below that constrains an `.ok` or ordinary-`.error` result is
about executions the C++ code actually performs.
-/

/-- Token kinds used by the parser (from the lexer's `TokenId` enumeration;
only the kinds the parser inspects are needed). -/
inductive TokenId where
  | symbol
  | numberLiteral
  | stringLiteral
  | numberSign
  | lParen
  | rParen
  | lBrace
  | rBrace
  | star
  | slash
  | percent
  | plus
  | dash
  | tilde
  | bang
  | bitShiftLeft
  | bitShiftRight
  | binAnd
  | binXor
  | binOr
  | cmpEq
  | cmpNotEq
  | cmpLessThan
  | cmpGreaterThan
  | cmpLessOrEq
  | cmpGreaterOrEq
  | boolAnd
  | boolOr
  | colon
  | comma
  | arrow
  | semicolon
  | keywordFn
  | keywordPub
  | keywordExport
  | keywordExtern
  | keywordUse
  | keywordReturn
  | keywordAs
  | keywordConst
  | keywordMut
  | keywordUnreachable
  | eof
  deriving DecidableEq, Repr

/-- A lexer token: kind, byte offsets into the source buffer, and 1-based
start line/column (the fields of the C++ `Token` the parser reads). -/
structure Token where
  id : TokenId
  startPos : Nat
  endPos : Nat
  startLine : Nat
  startColumn : Nat
  deriving DecidableEq, Repr

/-- Embedding of `BinOpType` from the source, including the `Invalid` sentinel the
`tok_to_*_op` helpers return on a non-match. -/
inductive BinOpType where
  | invalid
  | boolOr
  | boolAnd
  | cmpEq
  | cmpNotEq
  | cmpLessThan
  | cmpGreaterThan
  | cmpLessOrEq
  | cmpGreaterOrEq
  | binOr
  | binXor
  | binAnd
  | bitShiftLeft
  | bitShiftRight
  | add
  | sub
  | mult
  | div
  | mod
  deriving DecidableEq, Repr

/-- Embedding of `PrefixOp` from the source, including the `Invalid` sentinel. -/
inductive PrefixOp where
  | invalid
  | negation
  | boolNot
  | binNot
  deriving DecidableEq, Repr

/-- Embedding of `FnProtoVisibMod` from the source. -/
inductive FnProtoVisibMod where
  | visibPrivate
  | visibPub
  | visibExport
  deriving DecidableEq, Repr

/-- The AST node type: one constructor per `NodeType` tag, carrying the
node's recorded 1-based line/column and the payload of its
`data` union member.  The source's `NodeTypeType` node holds a
two-variant payload (`AstNodeTypeTypePrimitive` / `AstNodeTypeTypePointer`);
here that tag is flattened into the two constructors `typePrimitive` and
`typePointer`.  Lexemes and decoded strings are `List Char` (owned byte
buffers in the source). -/
inductive AstNode where
  | root (line col : Nat) (topLevelDecls : List AstNode)
  | rootExportDecl (line col : Nat) (type name : List Char)
      (directives : Option (List AstNode))
  | use (line col : Nat) (path : List Char) (directives : Option (List AstNode))
  | externBlock (line col : Nat) (directives : Option (List AstNode))
      (fnDecls : List AstNode)
  | fnDef (line col : Nat) (fnProto body : AstNode)
  | fnDecl (line col : Nat) (fnProto : AstNode)
  | fnProto (line col : Nat) (visibMod : FnProtoVisibMod) (name : List Char)
      (params : List AstNode) (returnType : AstNode)
      (directives : Option (List AstNode))
  | paramDecl (line col : Nat) (name : List Char) (type : AstNode)
  | typePrimitive (line col : Nat) (primitiveName : List Char)
  | typePointer (line col : Nat) (isConst : Bool) (childType : AstNode)
  | block (line col : Nat) (statements : List AstNode)
  | binOpExpr (line col : Nat) (binOp : BinOpType) (op1 op2 : AstNode)
  | prefixOpExpr (line col : Nat) (prefixOp : PrefixOp) (primaryExpr : AstNode)
  | castExpr (line col : Nat) (prefixOpExpr type : AstNode)
  | fnCallExpr (line col : Nat) (fnRefExpr : AstNode) (params : List AstNode)
  | returnExpr (line col : Nat) (expr : Option AstNode)
  | numberLiteral (line col : Nat) (number : List Char)
  | stringLiteral (line col : Nat) (str : List Char)
  | symbol (line col : Nat) (sym : List Char)
  | unreachable (line col : Nat)
  | directive (line col : Nat) (name param : List Char)

/-- The parse session's read-only data: the source buffer and the token
sequence (the `buf` and `tokens` fields of the C++ `ParseContext`; the
mutable `directive_list` slot is threaded separately, and `owner` /
`err_color` only feed the diagnostics printer). -/
structure ParseContext where
  buf : List Char
  tokens : List Token

/-- An aborting diagnostic, as filled in by `ast_error`: the 1-based
start position of the offending token and the formatted message. -/
structure PError where
  lineStart : Nat
  columnStart : Nat
  msg : String
  deriving DecidableEq, Repr

/-- Error used when the embedding's fuel runs out (no C++ counterpart;
see the header comment). -/
def fuelError : PError := ⟨0, 0, "embedding: out of fuel"⟩

/-- Error used where the C++ hits a failing `assert` (which aborts the
process without a positioned diagnostic). -/
def assertError : PError := ⟨0, 0, "assertion failure"⟩

/-- Embedding of `pc->tokens->at(i)`.  The C++ indexes unconditionally (the lexer's
EOF sentinel keeps in-grammar executions in bounds); out-of-range access
is modelled by an EOF token at position 0. -/
def tokenAt (pc : ParseContext) (i : Nat) : Token :=
  pc.tokens.getD i ⟨TokenId.eof, 0, 0, 0, 0⟩

/-- Embedding of `ast_buf_from_token`: the lexeme, i.e. the source bytes
`[token.start_pos, token.end_pos)`. -/
def ast_buf_from_token (pc : ParseContext) (token : Token) : List Char :=
  (pc.buf.drop token.startPos).take (token.endPos - token.startPos)

/-- Embedding of `ast_invalid_token_error`: the `invalid token: '<lexeme>'` diagnostic
at the token's position. -/
def ast_invalid_token_error (pc : ParseContext) (token : Token) : PError :=
  ⟨token.startLine, token.startColumn,
    "invalid token: '" ++ String.mk (ast_buf_from_token pc token) ++ "'"⟩

/-- Embedding of `ast_create_void_type_node`: a primitive `Type` node named `"void"`
stamped with the given token's position. -/
def ast_create_void_type_node (token : Token) : AstNode :=
  AstNode.typePrimitive token.startLine token.startColumn ("void".toList)

/-- The loop body of `parse_string_literal`: processes `count` bytes of
`src` starting at index `i`, carrying the `escape` flag and the output
buffer `acc` (appended to like `buf_append_char`).  Returns the final
buffer and final `escape` flag. -/
def parse_string_literal_go (src : List Char) :
    Nat → Nat → Bool → List Char → List Char × Bool
  | _, 0, escape, acc => (acc, escape)
  | i, count + 1, escape, acc =>
    let c := src.getD i ' '
    if escape then
      let acc' :=
        if c = '\\' then acc ++ ['\\']
        else if c = 'r' then acc ++ ['\r']
        else if c = 'n' then acc ++ ['\n']
        else if c = 't' then acc ++ ['\t']
        else if c = '"' then acc ++ ['"']
        else acc          -- no default case: unknown escapes append nothing
      parse_string_literal_go src (i + 1) count false acc'
    else if c = '\\' then
      parse_string_literal_go src (i + 1) count true acc
    else
      parse_string_literal_go src (i + 1) count false (acc ++ [c])

/-- Embedding of `parse_string_literal`: decodes the bytes strictly between the
surrounding quotes, i.e. indices `[start_pos+1, end_pos-1)` of `src`.
Returns `none` where the C++ fails its trailing `assert(!escape)`. -/
def parse_string_literal (src : List Char) (startPos endPos : Nat) :
    Option (List Char) :=
  let r := parse_string_literal_go src (startPos + 1)
      ((endPos - 1) - (startPos + 1)) false []
  if r.2 then none else some r.1

/-- The escape table as the specification words it: `\\`→`\`, `\r`→CR,
`\n`→LF, `\t`→TAB, `\"`→`"`, anything else emits nothing. -/
def specEscByte (c : Char) : List Char :=
  if c = '\\' then ['\\']
  else if c = 'r' then ['\r']
  else if c = 'n' then ['\n']
  else if c = 't' then ['\t']
  else if c = '"' then ['"']
  else []

/-- Modelled from the spec's words (§4.6): the decoder maps each escape
pair through the table, copies every non-escape byte unchanged, and
drops a backslash-led pair whose second byte is outside the table.
Used as the comparison point for `parse_string_literal`. -/
def specDecode : List Char → List Char
  | [] => []
  | c :: rest =>
    if c = '\\' then
      match rest with
      | [] => []
      | c2 :: rest2 => specEscByte c2 ++ specDecode rest2
    else
      c :: specDecode rest

/-- The bytes strictly between the quotes of a string token. -/
def innerBytes (src : List Char) (startPos endPos : Nat) : List Char :=
  (src.drop (startPos + 1)).take ((endPos - 1) - (startPos + 1))

/-- Embedding of `ast_expect_token`: succeed iff the token has the expected kind
(the C++ advances first and aborts on mismatch; since the abort discards
all state, check-then-advance is equivalent and used at call sites). -/
def ast_expect_token (pc : ParseContext) (token : Token) (tokenId : TokenId) :
    Except PError Unit :=
  if token.id = tokenId then .ok () else .error (ast_invalid_token_error pc token)

/-- Embedding of `ast_parse_type`:
`Type : token(Symbol) | PointerType | token(Unreachable)`,
`PointerType : token(Star) token(Const) Type | token(Star) token(Mut) Type`. -/
def ast_parse_type (fuel : Nat) (pc : ParseContext) (tokenIndex : Nat) :
    Except PError (AstNode × Nat) :=
  match fuel with
  | 0 => .error fuelError
  | fuel + 1 =>
    let token := tokenAt pc tokenIndex
    if token.id = TokenId.keywordUnreachable then
      .ok (AstNode.typePrimitive token.startLine token.startColumn
            ("unreachable".toList), tokenIndex + 1)
    else if token.id = TokenId.symbol then
      .ok (AstNode.typePrimitive token.startLine token.startColumn
            (ast_buf_from_token pc token), tokenIndex + 1)
    else if token.id = TokenId.star then
      let constOrMut := tokenAt pc (tokenIndex + 1)
      if constOrMut.id = TokenId.keywordMut then
        match ast_parse_type fuel pc (tokenIndex + 2) with
        | .error e => .error e
        | .ok (child, j) =>
          .ok (AstNode.typePointer token.startLine token.startColumn false child, j)
      else if constOrMut.id = TokenId.keywordConst then
        match ast_parse_type fuel pc (tokenIndex + 2) with
        | .error e => .error e
        | .ok (child, j) =>
          .ok (AstNode.typePointer token.startLine token.startColumn true child, j)
      else
        .error (ast_invalid_token_error pc constOrMut)
    else
      .error (ast_invalid_token_error pc token)
termination_by structural fuel

/-- Embedding of `ast_parse_param_decl`: `ParamDecl : token(Symbol) token(Colon) Type`. -/
def ast_parse_param_decl (fuel : Nat) (pc : ParseContext) (tokenIndex : Nat) :
    Except PError (AstNode × Nat) :=
  let paramName := tokenAt pc tokenIndex
  match ast_expect_token pc paramName TokenId.symbol with
  | .error e => .error e
  | .ok _ =>
    let colon := tokenAt pc (tokenIndex + 1)
    match ast_expect_token pc colon TokenId.colon with
    | .error e => .error e
    | .ok _ =>
      match ast_parse_type fuel pc (tokenIndex + 2) with
      | .error e => .error e
      | .ok (type, j) =>
        .ok (AstNode.paramDecl paramName.startLine paramName.startColumn
              (ast_buf_from_token pc paramName) type, j)

/-- The `for (;;)` loop of `ast_parse_param_decl_list`. -/
def ast_parse_param_decl_list_loop (fuel : Nat) (pc : ParseContext)
    (tokenIndex : Nat) (params : List AstNode) :
    Except PError (List AstNode × Nat) :=
  match fuel with
  | 0 => .error fuelError
  | fuel + 1 =>
    match ast_parse_param_decl fuel pc tokenIndex with
    | .error e => .error e
    | .ok (paramDeclNode, j) =>
      let token := tokenAt pc j
      if token.id = TokenId.rParen then
        .ok (params ++ [paramDeclNode], j + 1)
      else
        match ast_expect_token pc token TokenId.comma with
        | .error e => .error e
        | .ok _ =>
          ast_parse_param_decl_list_loop fuel pc (j + 1) (params ++ [paramDeclNode])
termination_by structural fuel

/-- Embedding of `ast_parse_param_decl_list`: `(` then either `)` (empty list) or a
comma-separated sequence of `ParamDecl` closed by `)`. -/
def ast_parse_param_decl_list (fuel : Nat) (pc : ParseContext) (tokenIndex : Nat) :
    Except PError (List AstNode × Nat) :=
  let lParen := tokenAt pc tokenIndex
  match ast_expect_token pc lParen TokenId.lParen with
  | .error e => .error e
  | .ok _ =>
    let token := tokenAt pc (tokenIndex + 1)
    if token.id = TokenId.rParen then
      .ok ([], tokenIndex + 2)
    else
      ast_parse_param_decl_list_loop fuel pc (tokenIndex + 1) []

/-- Embedding of `ast_parse_directive`:
`Directive : token(NumberSign) token(Symbol) token(LParen) token(String) token(RParen)`. -/
def ast_parse_directive (pc : ParseContext) (tokenIndex : Nat) :
    Except PError (AstNode × Nat) :=
  let numberSign := tokenAt pc tokenIndex
  match ast_expect_token pc numberSign TokenId.numberSign with
  | .error e => .error e
  | .ok _ =>
    let nameSymbol := tokenAt pc (tokenIndex + 1)
    match ast_expect_token pc nameSymbol TokenId.symbol with
    | .error e => .error e
    | .ok _ =>
      let lParen := tokenAt pc (tokenIndex + 2)
      match ast_expect_token pc lParen TokenId.lParen with
      | .error e => .error e
      | .ok _ =>
        let paramStr := tokenAt pc (tokenIndex + 3)
        match ast_expect_token pc paramStr TokenId.stringLiteral with
        | .error e => .error e
        | .ok _ =>
          match parse_string_literal pc.buf paramStr.startPos paramStr.endPos with
          | none => .error assertError
          | some param =>
            let rParen := tokenAt pc (tokenIndex + 4)
            match ast_expect_token pc rParen TokenId.rParen with
            | .error e => .error e
            | .ok _ =>
              .ok (AstNode.directive numberSign.startLine numberSign.startColumn
                    (ast_buf_from_token pc nameSymbol) param, tokenIndex + 5)

/-- Embedding of `ast_parse_directives`: greedily collect `Directive`s while the
current token is `#`, appending to the pending list. -/
def ast_parse_directives (fuel : Nat) (pc : ParseContext) (tokenIndex : Nat)
    (directives : List AstNode) : Except PError (List AstNode × Nat) :=
  match fuel with
  | 0 => .error fuelError
  | fuel + 1 =>
    let token := tokenAt pc tokenIndex
    if token.id = TokenId.numberSign then
      match ast_parse_directive pc tokenIndex with
      | .error e => .error e
      | .ok (directiveNode, j) =>
        ast_parse_directives fuel pc j (directives ++ [directiveNode])
    else
      .ok (directives, tokenIndex)
termination_by structural fuel

/-- Embedding of `tok_to_prefix_op`. -/
def tok_to_prefix_op (token : Token) : PrefixOp :=
  match token.id with
  | TokenId.bang => PrefixOp.boolNot
  | TokenId.dash => PrefixOp.negation
  | TokenId.tilde => PrefixOp.binNot
  | _ => PrefixOp.invalid

/-- Embedding of `ast_parse_prefix_op`: consume one prefix operator, or report
`PrefixOp.invalid` without advancing (erroring when mandatory). -/
def ast_parse_prefix_op (pc : ParseContext) (tokenIndex : Nat) (mandatory : Bool) :
    Except PError (PrefixOp × Nat) :=
  let token := tokenAt pc tokenIndex
  let result := tok_to_prefix_op token
  if result = PrefixOp.invalid then
    if mandatory then .error (ast_invalid_token_error pc token)
    else .ok (PrefixOp.invalid, tokenIndex)
  else
    .ok (result, tokenIndex + 1)

/-- Embedding of `tok_to_mult_op`. -/
def tok_to_mult_op (token : Token) : BinOpType :=
  match token.id with
  | TokenId.star => BinOpType.mult
  | TokenId.slash => BinOpType.div
  | TokenId.percent => BinOpType.mod
  | _ => BinOpType.invalid

/-- Embedding of `ast_parse_mult_op`. -/
def ast_parse_mult_op (pc : ParseContext) (tokenIndex : Nat) (mandatory : Bool) :
    Except PError (BinOpType × Nat) :=
  let token := tokenAt pc tokenIndex
  let result := tok_to_mult_op token
  if result = BinOpType.invalid then
    if mandatory then .error (ast_invalid_token_error pc token)
    else .ok (BinOpType.invalid, tokenIndex)
  else
    .ok (result, tokenIndex + 1)

/-- Embedding of `tok_to_add_op`. -/
def tok_to_add_op (token : Token) : BinOpType :=
  match token.id with
  | TokenId.plus => BinOpType.add
  | TokenId.dash => BinOpType.sub
  | _ => BinOpType.invalid

/-- Embedding of `ast_parse_add_op`. -/
def ast_parse_add_op (pc : ParseContext) (tokenIndex : Nat) (mandatory : Bool) :
    Except PError (BinOpType × Nat) :=
  let token := tokenAt pc tokenIndex
  let result := tok_to_add_op token
  if result = BinOpType.invalid then
    if mandatory then .error (ast_invalid_token_error pc token)
    else .ok (BinOpType.invalid, tokenIndex)
  else
    .ok (result, tokenIndex + 1)

/-- Embedding of `tok_to_bit_shift_op`. -/
def tok_to_bit_shift_op (token : Token) : BinOpType :=
  match token.id with
  | TokenId.bitShiftLeft => BinOpType.bitShiftLeft
  | TokenId.bitShiftRight => BinOpType.bitShiftRight
  | _ => BinOpType.invalid

/-- Embedding of `ast_parse_bit_shift_op`. -/
def ast_parse_bit_shift_op (pc : ParseContext) (tokenIndex : Nat) (mandatory : Bool) :
    Except PError (BinOpType × Nat) :=
  let token := tokenAt pc tokenIndex
  let result := tok_to_bit_shift_op token
  if result = BinOpType.invalid then
    if mandatory then .error (ast_invalid_token_error pc token)
    else .ok (BinOpType.invalid, tokenIndex)
  else
    .ok (result, tokenIndex + 1)

/-- Embedding of `tok_to_cmp_op`. -/
def tok_to_cmp_op (token : Token) : BinOpType :=
  match token.id with
  | TokenId.cmpEq => BinOpType.cmpEq
  | TokenId.cmpNotEq => BinOpType.cmpNotEq
  | TokenId.cmpLessThan => BinOpType.cmpLessThan
  | TokenId.cmpGreaterThan => BinOpType.cmpGreaterThan
  | TokenId.cmpLessOrEq => BinOpType.cmpLessOrEq
  | TokenId.cmpGreaterOrEq => BinOpType.cmpGreaterOrEq
  | _ => BinOpType.invalid

/-- Embedding of `ast_parse_comparison_operator`. -/
def ast_parse_comparison_operator (pc : ParseContext) (tokenIndex : Nat)
    (mandatory : Bool) : Except PError (BinOpType × Nat) :=
  let token := tokenAt pc tokenIndex
  let result := tok_to_cmp_op token
  if result = BinOpType.invalid then
    if mandatory then .error (ast_invalid_token_error pc token)
    else .ok (BinOpType.invalid, tokenIndex)
  else
    .ok (result, tokenIndex + 1)

/-- The position a node was stamped with (`node->line`, `node->column`);
used where the C++ calls `ast_create_node_with_node`. -/
def astNodePos : AstNode → Nat × Nat
  | AstNode.root l c _ => (l, c)
  | AstNode.rootExportDecl l c _ _ _ => (l, c)
  | AstNode.use l c _ _ => (l, c)
  | AstNode.externBlock l c _ _ => (l, c)
  | AstNode.fnDef l c _ _ => (l, c)
  | AstNode.fnDecl l c _ => (l, c)
  | AstNode.fnProto l c _ _ _ _ _ => (l, c)
  | AstNode.paramDecl l c _ _ => (l, c)
  | AstNode.typePrimitive l c _ => (l, c)
  | AstNode.typePointer l c _ _ => (l, c)
  | AstNode.block l c _ => (l, c)
  | AstNode.binOpExpr l c _ _ _ => (l, c)
  | AstNode.prefixOpExpr l c _ _ => (l, c)
  | AstNode.castExpr l c _ _ => (l, c)
  | AstNode.fnCallExpr l c _ _ => (l, c)
  | AstNode.returnExpr l c _ => (l, c)
  | AstNode.numberLiteral l c _ => (l, c)
  | AstNode.stringLiteral l c _ => (l, c)
  | AstNode.symbol l c _ => (l, c)
  | AstNode.unreachable l c => (l, c)
  | AstNode.directive l c _ _ => (l, c)

mutual

/-- Embedding of `ast_parse_grouped_expr`:
`GroupedExpression : token(LParen) Expression token(RParen)` — returns
the inner expression's node itself, with no wrapper. -/
def ast_parse_grouped_expr (fuel : Nat) (pc : ParseContext) (tokenIndex : Nat)
    (mandatory : Bool) : Except PError (Option AstNode × Nat) :=
  match fuel with
  | 0 => .error fuelError
  | fuel + 1 =>
    let lParen := tokenAt pc tokenIndex
    if lParen.id ≠ TokenId.lParen then
      if mandatory then .error (ast_invalid_token_error pc lParen)
      else .ok (none, tokenIndex)
    else
      match ast_parse_expression fuel pc (tokenIndex + 1) true with
      | .error e => .error e
      | .ok (node, j) =>
        let rParen := tokenAt pc j
        match ast_expect_token pc rParen TokenId.rParen with
        | .error e => .error e
        | .ok _ => .ok (node, j + 1)
termination_by structural fuel

/-- Embedding of `ast_parse_primary_expr`:
`PrimaryExpression : token(Number) | token(String) | token(Unreachable) |
GroupedExpression | Block | token(Symbol)`. -/
def ast_parse_primary_expr (fuel : Nat) (pc : ParseContext) (tokenIndex : Nat)
    (mandatory : Bool) : Except PError (Option AstNode × Nat) :=
  match fuel with
  | 0 => .error fuelError
  | fuel + 1 =>
    let token := tokenAt pc tokenIndex
    if token.id = TokenId.numberLiteral then
      .ok (some (AstNode.numberLiteral token.startLine token.startColumn
            (ast_buf_from_token pc token)), tokenIndex + 1)
    else if token.id = TokenId.stringLiteral then
      match parse_string_literal pc.buf token.startPos token.endPos with
      | none => .error assertError
      | some str =>
        .ok (some (AstNode.stringLiteral token.startLine token.startColumn str),
              tokenIndex + 1)
    else if token.id = TokenId.keywordUnreachable then
      .ok (some (AstNode.unreachable token.startLine token.startColumn),
            tokenIndex + 1)
    else if token.id = TokenId.symbol then
      .ok (some (AstNode.symbol token.startLine token.startColumn
            (ast_buf_from_token pc token)), tokenIndex + 1)
    else
      match ast_parse_block fuel pc tokenIndex false with
      | .error e => .error e
      | .ok (some blockNode, j) => .ok (some blockNode, j)
      | .ok (none, j) =>
        match ast_parse_grouped_expr fuel pc j false with
        | .error e => .error e
        | .ok (some groupedExprNode, j') => .ok (some groupedExprNode, j')
        | .ok (none, j') =>
          if mandatory then .error (ast_invalid_token_error pc token)
          else .ok (none, j')
termination_by structural fuel

/-- The argument-list loop of `ast_parse_fn_call_param_list`. -/
def ast_parse_fn_call_param_list_loop (fuel : Nat) (pc : ParseContext)
    (tokenIndex : Nat) (params : List AstNode) :
    Except PError (List AstNode × Nat) :=
  match fuel with
  | 0 => .error fuelError
  | fuel + 1 =>
    match ast_parse_expression fuel pc tokenIndex true with
    | .error e => .error e
    | .ok (none, _) => .error fuelError
    | .ok (some expr, j) =>
      let token := tokenAt pc j
      if token.id = TokenId.rParen then
        .ok (params ++ [expr], j + 1)
      else
        match ast_expect_token pc token TokenId.comma with
        | .error e => .error e
        | .ok _ =>
          ast_parse_fn_call_param_list_loop fuel pc (j + 1) (params ++ [expr])
termination_by structural fuel

/-- Embedding of `ast_parse_fn_call_param_list`: `(` then either `)` (empty argument
list) or comma-separated mandatory `Expression`s closed by `)`. -/
def ast_parse_fn_call_param_list (fuel : Nat) (pc : ParseContext)
    (tokenIndex : Nat) : Except PError (List AstNode × Nat) :=
  match fuel with
  | 0 => .error fuelError
  | fuel + 1 =>
    let lParen := tokenAt pc tokenIndex
    match ast_expect_token pc lParen TokenId.lParen with
    | .error e => .error e
    | .ok _ =>
      let token := tokenAt pc (tokenIndex + 1)
      if token.id = TokenId.rParen then
        .ok ([], tokenIndex + 2)
      else
        ast_parse_fn_call_param_list_loop fuel pc (tokenIndex + 1) []
termination_by structural fuel

/-- Embedding of `ast_parse_fn_call_expr`:
`FnCallExpression : PrimaryExpression token(LParen) list(Expression,
token(Comma)) token(RParen) | PrimaryExpression` — at most one call
suffix; the call node takes the primary expression's position
(`ast_create_node_with_node`). -/
def ast_parse_fn_call_expr (fuel : Nat) (pc : ParseContext) (tokenIndex : Nat)
    (mandatory : Bool) : Except PError (Option AstNode × Nat) :=
  match fuel with
  | 0 => .error fuelError
  | fuel + 1 =>
    match ast_parse_primary_expr fuel pc tokenIndex mandatory with
    | .error e => .error e
    | .ok (none, j) => .ok (none, j)
    | .ok (some primaryExpr, j) =>
      let lParen := tokenAt pc j
      if lParen.id ≠ TokenId.lParen then
        .ok (some primaryExpr, j)
      else
        match ast_parse_fn_call_param_list fuel pc j with
        | .error e => .error e
        | .ok (params, j') =>
          .ok (some (AstNode.fnCallExpr (astNodePos primaryExpr).1
                (astNodePos primaryExpr).2 primaryExpr params), j')
termination_by structural fuel

/-- Embedding of `ast_parse_prefix_op_expr`:
`PrefixOpExpression : PrefixOp FnCallExpression | FnCallExpression`;
the node takes the prefix operator token's position. -/
def ast_parse_prefix_op_expr (fuel : Nat) (pc : ParseContext) (tokenIndex : Nat)
    (mandatory : Bool) : Except PError (Option AstNode × Nat) :=
  match fuel with
  | 0 => .error fuelError
  | fuel + 1 =>
    let token := tokenAt pc tokenIndex
    match ast_parse_prefix_op pc tokenIndex false with
    | .error e => .error e
    | .ok (PrefixOp.invalid, j) =>
      ast_parse_fn_call_expr fuel pc j mandatory
    | .ok (op, j) =>
      match ast_parse_fn_call_expr fuel pc j true with
      | .error e => .error e
      | .ok (none, _) => .error fuelError
      | .ok (some primaryExpr, j') =>
        .ok (some (AstNode.prefixOpExpr token.startLine token.startColumn
              op primaryExpr), j')
termination_by structural fuel

/-- Embedding of `ast_parse_cast_expression`:
`CastExpression : PrefixOpExpression token(as) Type | PrefixOpExpression`
— at most one cast suffix; the node takes the `as` token's position. -/
def ast_parse_cast_expression (fuel : Nat) (pc : ParseContext) (tokenIndex : Nat)
    (mandatory : Bool) : Except PError (Option AstNode × Nat) :=
  match fuel with
  | 0 => .error fuelError
  | fuel + 1 =>
    match ast_parse_prefix_op_expr fuel pc tokenIndex mandatory with
    | .error e => .error e
    | .ok (none, j) => .ok (none, j)
    | .ok (some prefixOpExprNode, j) =>
      let asKw := tokenAt pc j
      if asKw.id ≠ TokenId.keywordAs then
        .ok (some prefixOpExprNode, j)
      else
        match ast_parse_type fuel pc (j + 1) with
        | .error e => .error e
        | .ok (type, j') =>
          .ok (some (AstNode.castExpr asKw.startLine asKw.startColumn
                prefixOpExprNode type), j')
termination_by structural fuel

/-- Embedding of `ast_parse_mult_expr`:
`MultiplyExpression : CastExpression MultiplyOperator CastExpression |
CastExpression` — note: at most ONE operator pair is folded (no loop);
the node takes the operator token's position. -/
def ast_parse_mult_expr (fuel : Nat) (pc : ParseContext) (tokenIndex : Nat)
    (mandatory : Bool) : Except PError (Option AstNode × Nat) :=
  match fuel with
  | 0 => .error fuelError
  | fuel + 1 =>
    match ast_parse_cast_expression fuel pc tokenIndex mandatory with
    | .error e => .error e
    | .ok (none, j) => .ok (none, j)
    | .ok (some operand1, j) =>
      let token := tokenAt pc j
      match ast_parse_mult_op pc j false with
      | .error e => .error e
      | .ok (BinOpType.invalid, _) => .ok (some operand1, j)
      | .ok (multOp, j') =>
        match ast_parse_cast_expression fuel pc j' true with
        | .error e => .error e
        | .ok (none, _) => .error fuelError
        | .ok (some operand2, j'') =>
          .ok (some (AstNode.binOpExpr token.startLine token.startColumn
                multOp operand1 operand2), j'')
termination_by structural fuel

/-- Embedding of `ast_parse_add_expr`:
`AdditionExpression : MultiplyExpression AdditionOperator
MultiplyExpression | MultiplyExpression` — at most one operator pair. -/
def ast_parse_add_expr (fuel : Nat) (pc : ParseContext) (tokenIndex : Nat)
    (mandatory : Bool) : Except PError (Option AstNode × Nat) :=
  match fuel with
  | 0 => .error fuelError
  | fuel + 1 =>
    match ast_parse_mult_expr fuel pc tokenIndex mandatory with
    | .error e => .error e
    | .ok (none, j) => .ok (none, j)
    | .ok (some operand1, j) =>
      let token := tokenAt pc j
      match ast_parse_add_op pc j false with
      | .error e => .error e
      | .ok (BinOpType.invalid, _) => .ok (some operand1, j)
      | .ok (addOp, j') =>
        match ast_parse_mult_expr fuel pc j' true with
        | .error e => .error e
        | .ok (none, _) => .error fuelError
        | .ok (some operand2, j'') =>
          .ok (some (AstNode.binOpExpr token.startLine token.startColumn
                addOp operand1 operand2), j'')
termination_by structural fuel

/-- Embedding of `ast_parse_bit_shift_expr`:
`BitShiftExpression : AdditionExpression BitShiftOperator
AdditionExpression | AdditionExpression` — at most one operator pair. -/
def ast_parse_bit_shift_expr (fuel : Nat) (pc : ParseContext) (tokenIndex : Nat)
    (mandatory : Bool) : Except PError (Option AstNode × Nat) :=
  match fuel with
  | 0 => .error fuelError
  | fuel + 1 =>
    match ast_parse_add_expr fuel pc tokenIndex mandatory with
    | .error e => .error e
    | .ok (none, j) => .ok (none, j)
    | .ok (some operand1, j) =>
      let token := tokenAt pc j
      match ast_parse_bit_shift_op pc j false with
      | .error e => .error e
      | .ok (BinOpType.invalid, _) => .ok (some operand1, j)
      | .ok (bitShiftOp, j') =>
        match ast_parse_add_expr fuel pc j' true with
        | .error e => .error e
        | .ok (none, _) => .error fuelError
        | .ok (some operand2, j'') =>
          .ok (some (AstNode.binOpExpr token.startLine token.startColumn
                bitShiftOp operand1 operand2), j'')
termination_by structural fuel

/-- Embedding of `ast_parse_bin_and_expr`:
`BinaryAndExpression : BitShiftExpression token(BinAnd)
BitShiftExpression | BitShiftExpression` — at most one operator pair. -/
def ast_parse_bin_and_expr (fuel : Nat) (pc : ParseContext) (tokenIndex : Nat)
    (mandatory : Bool) : Except PError (Option AstNode × Nat) :=
  match fuel with
  | 0 => .error fuelError
  | fuel + 1 =>
    match ast_parse_bit_shift_expr fuel pc tokenIndex mandatory with
    | .error e => .error e
    | .ok (none, j) => .ok (none, j)
    | .ok (some operand1, j) =>
      let token := tokenAt pc j
      if token.id ≠ TokenId.binAnd then
        .ok (some operand1, j)
      else
        match ast_parse_bit_shift_expr fuel pc (j + 1) true with
        | .error e => .error e
        | .ok (none, _) => .error fuelError
        | .ok (some operand2, j') =>
          .ok (some (AstNode.binOpExpr token.startLine token.startColumn
                BinOpType.binAnd operand1 operand2), j')
termination_by structural fuel

/-- Embedding of `ast_parse_bin_xor_expr`:
`BinaryXorExpression : BinaryAndExpression token(BinXor)
BinaryAndExpression | BinaryAndExpression` — at most one operator pair. -/
def ast_parse_bin_xor_expr (fuel : Nat) (pc : ParseContext) (tokenIndex : Nat)
    (mandatory : Bool) : Except PError (Option AstNode × Nat) :=
  match fuel with
  | 0 => .error fuelError
  | fuel + 1 =>
    match ast_parse_bin_and_expr fuel pc tokenIndex mandatory with
    | .error e => .error e
    | .ok (none, j) => .ok (none, j)
    | .ok (some operand1, j) =>
      let token := tokenAt pc j
      if token.id ≠ TokenId.binXor then
        .ok (some operand1, j)
      else
        match ast_parse_bin_and_expr fuel pc (j + 1) true with
        | .error e => .error e
        | .ok (none, _) => .error fuelError
        | .ok (some operand2, j') =>
          .ok (some (AstNode.binOpExpr token.startLine token.startColumn
                BinOpType.binXor operand1 operand2), j')
termination_by structural fuel

/-- Embedding of `ast_parse_bin_or_expr`:
`BinaryOrExpression : BinaryXorExpression token(BinOr)
BinaryXorExpression | BinaryXorExpression` — at most one operator pair. -/
def ast_parse_bin_or_expr (fuel : Nat) (pc : ParseContext) (tokenIndex : Nat)
    (mandatory : Bool) : Except PError (Option AstNode × Nat) :=
  match fuel with
  | 0 => .error fuelError
  | fuel + 1 =>
    match ast_parse_bin_xor_expr fuel pc tokenIndex mandatory with
    | .error e => .error e
    | .ok (none, j) => .ok (none, j)
    | .ok (some operand1, j) =>
      let token := tokenAt pc j
      if token.id ≠ TokenId.binOr then
        .ok (some operand1, j)
      else
        match ast_parse_bin_xor_expr fuel pc (j + 1) true with
        | .error e => .error e
        | .ok (none, _) => .error fuelError
        | .ok (some operand2, j') =>
          .ok (some (AstNode.binOpExpr token.startLine token.startColumn
                BinOpType.binOr operand1 operand2), j')
termination_by structural fuel

/-- Embedding of `ast_parse_comparison_expr`:
`ComparisonExpression : BinaryOrExpression ComparisonOperator
BinaryOrExpression | BinaryOrExpression` — at most one operator pair. -/
def ast_parse_comparison_expr (fuel : Nat) (pc : ParseContext) (tokenIndex : Nat)
    (mandatory : Bool) : Except PError (Option AstNode × Nat) :=
  match fuel with
  | 0 => .error fuelError
  | fuel + 1 =>
    match ast_parse_bin_or_expr fuel pc tokenIndex mandatory with
    | .error e => .error e
    | .ok (none, j) => .ok (none, j)
    | .ok (some operand1, j) =>
      let token := tokenAt pc j
      match ast_parse_comparison_operator pc j false with
      | .error e => .error e
      | .ok (BinOpType.invalid, _) => .ok (some operand1, j)
      | .ok (cmpOp, j') =>
        match ast_parse_bin_or_expr fuel pc j' true with
        | .error e => .error e
        | .ok (none, _) => .error fuelError
        | .ok (some operand2, j'') =>
          .ok (some (AstNode.binOpExpr token.startLine token.startColumn
                cmpOp operand1 operand2), j'')
termination_by structural fuel

/-- Embedding of `ast_parse_bool_and_expr`:
`BoolAndExpression : ComparisonExpression token(BoolAnd)
ComparisonExpression | ComparisonExpression` — at most one operator pair. -/
def ast_parse_bool_and_expr (fuel : Nat) (pc : ParseContext) (tokenIndex : Nat)
    (mandatory : Bool) : Except PError (Option AstNode × Nat) :=
  match fuel with
  | 0 => .error fuelError
  | fuel + 1 =>
    match ast_parse_comparison_expr fuel pc tokenIndex mandatory with
    | .error e => .error e
    | .ok (none, j) => .ok (none, j)
    | .ok (some operand1, j) =>
      let token := tokenAt pc j
      if token.id ≠ TokenId.boolAnd then
        .ok (some operand1, j)
      else
        match ast_parse_comparison_expr fuel pc (j + 1) true with
        | .error e => .error e
        | .ok (none, _) => .error fuelError
        | .ok (some operand2, j') =>
          .ok (some (AstNode.binOpExpr token.startLine token.startColumn
                BinOpType.boolAnd operand1 operand2), j')
termination_by structural fuel

/-- Embedding of `ast_parse_return_expr`:
`ReturnExpression : token(Return) option(Expression)`. -/
def ast_parse_return_expr (fuel : Nat) (pc : ParseContext) (tokenIndex : Nat)
    (mandatory : Bool) : Except PError (Option AstNode × Nat) :=
  match fuel with
  | 0 => .error fuelError
  | fuel + 1 =>
    let returnTok := tokenAt pc tokenIndex
    if returnTok.id = TokenId.keywordReturn then
      match ast_parse_expression fuel pc (tokenIndex + 1) false with
      | .error e => .error e
      | .ok (expr, j) =>
        .ok (some (AstNode.returnExpr returnTok.startLine returnTok.startColumn
              expr), j)
    else if mandatory then
      .error (ast_invalid_token_error pc returnTok)
    else
      .ok (none, tokenIndex)
termination_by structural fuel

/-- Embedding of `ast_parse_bool_or_expr`:
`BoolOrExpression : BoolAndExpression token(BoolOr) BoolAndExpression |
BoolAndExpression` — at most one operator pair. -/
def ast_parse_bool_or_expr (fuel : Nat) (pc : ParseContext) (tokenIndex : Nat)
    (mandatory : Bool) : Except PError (Option AstNode × Nat) :=
  match fuel with
  | 0 => .error fuelError
  | fuel + 1 =>
    match ast_parse_bool_and_expr fuel pc tokenIndex mandatory with
    | .error e => .error e
    | .ok (none, j) => .ok (none, j)
    | .ok (some operand1, j) =>
      let token := tokenAt pc j
      if token.id ≠ TokenId.boolOr then
        .ok (some operand1, j)
      else
        match ast_parse_bool_and_expr fuel pc (j + 1) true with
        | .error e => .error e
        | .ok (none, _) => .error fuelError
        | .ok (some operand2, j') =>
          .ok (some (AstNode.binOpExpr token.startLine token.startColumn
                BinOpType.boolOr operand1 operand2), j')
termination_by structural fuel

/-- Embedding of `ast_parse_expression`:
`Expression : BoolOrExpression | ReturnExpression`. -/
def ast_parse_expression (fuel : Nat) (pc : ParseContext) (tokenIndex : Nat)
    (mandatory : Bool) : Except PError (Option AstNode × Nat) :=
  match fuel with
  | 0 => .error fuelError
  | fuel + 1 =>
    let token := tokenAt pc tokenIndex
    match ast_parse_return_expr fuel pc tokenIndex false with
    | .error e => .error e
    | .ok (some returnExprNode, j) => .ok (some returnExprNode, j)
    | .ok (none, j) =>
      match ast_parse_bool_or_expr fuel pc j false with
      | .error e => .error e
      | .ok (some boolOrExprNode, j') => .ok (some boolOrExprNode, j')
      | .ok (none, j') =>
        if mandatory then .error (ast_invalid_token_error pc token)
        else .ok (none, j')
termination_by structural fuel

/-- Embedding of `ast_parse_expression_statement`:
`ExpressionStatement : Expression token(Semicolon)`. -/
def ast_parse_expression_statement (fuel : Nat) (pc : ParseContext)
    (tokenIndex : Nat) : Except PError (AstNode × Nat) :=
  match fuel with
  | 0 => .error fuelError
  | fuel + 1 =>
    match ast_parse_expression fuel pc tokenIndex true with
    | .error e => .error e
    | .ok (none, _) => .error fuelError
    | .ok (some exprNode, j) =>
      let semicolon := tokenAt pc j
      match ast_expect_token pc semicolon TokenId.semicolon with
      | .error e => .error e
      | .ok _ => .ok (exprNode, j + 1)
termination_by structural fuel

/-- Embedding of `ast_parse_statement`: `Statement : ExpressionStatement`. -/
def ast_parse_statement (fuel : Nat) (pc : ParseContext) (tokenIndex : Nat) :
    Except PError (AstNode × Nat) :=
  match fuel with
  | 0 => .error fuelError
  | fuel + 1 => ast_parse_expression_statement fuel pc tokenIndex
termination_by structural fuel

/-- The statement loop of `ast_parse_block`. -/
def ast_parse_block_stmts (fuel : Nat) (pc : ParseContext) (tokenIndex : Nat)
    (statements : List AstNode) : Except PError (List AstNode × Nat) :=
  match fuel with
  | 0 => .error fuelError
  | fuel + 1 =>
    let token := tokenAt pc tokenIndex
    if token.id = TokenId.rBrace then
      .ok (statements, tokenIndex + 1)
    else
      match ast_parse_statement fuel pc tokenIndex with
      | .error e => .error e
      | .ok (statementNode, j) =>
        ast_parse_block_stmts fuel pc j (statements ++ [statementNode])
termination_by structural fuel

/-- Embedding of `ast_parse_block`: `Block : token(LBrace) many(Statement) token(RBrace)`. -/
def ast_parse_block (fuel : Nat) (pc : ParseContext) (tokenIndex : Nat)
    (mandatory : Bool) : Except PError (Option AstNode × Nat) :=
  match fuel with
  | 0 => .error fuelError
  | fuel + 1 =>
    let lBrace := tokenAt pc tokenIndex
    if lBrace.id ≠ TokenId.lBrace then
      if mandatory then .error (ast_invalid_token_error pc lBrace)
      else .ok (none, tokenIndex)
    else
      match ast_parse_block_stmts fuel pc (tokenIndex + 1) [] with
      | .error e => .error e
      | .ok (statements, j) =>
        .ok (some (AstNode.block lBrace.startLine lBrace.startColumn statements),
              j)
termination_by structural fuel

end

/-- Embedding of `ast_parse_fn_proto`:
`FnProto : many(Directive) option(FnVisibleMod) token(Fn) token(Symbol)
ParamDeclList option(token(Arrow) Type)`.
The pending directive slot (`pc->directive_list`) is taken by the node
and then set to null; when no `->` follows the parameter list, the
return type is a synthesized void `Type` node stamped with the position
of the token where the arrow would have been. -/
def ast_parse_fn_proto (fuel : Nat) (pc : ParseContext)
    (directiveList : Option (List AstNode)) (tokenIndex : Nat)
    (mandatory : Bool) :
    Except PError (Option AstNode × Nat × Option (List AstNode)) :=
  match fuel with
  | 0 => .error fuelError
  | fuel + 1 =>
    let token := tokenAt pc tokenIndex
    let visib : Except PError (Option (FnProtoVisibMod × Nat)) :=
      if token.id = TokenId.keywordPub then
        let fnToken := tokenAt pc (tokenIndex + 1)
        match ast_expect_token pc fnToken TokenId.keywordFn with
        | .error e => .error e
        | .ok _ => .ok (some (FnProtoVisibMod.visibPub, tokenIndex + 2))
      else if token.id = TokenId.keywordExport then
        let fnToken := tokenAt pc (tokenIndex + 1)
        match ast_expect_token pc fnToken TokenId.keywordFn with
        | .error e => .error e
        | .ok _ => .ok (some (FnProtoVisibMod.visibExport, tokenIndex + 2))
      else if token.id = TokenId.keywordFn then
        .ok (some (FnProtoVisibMod.visibPrivate, tokenIndex + 1))
      else if mandatory then
        .error (ast_invalid_token_error pc token)
      else
        .ok none
    match visib with
    | .error e => .error e
    | .ok none => .ok (none, tokenIndex, directiveList)
    | .ok (some (visibMod, i1)) =>
      let fnName := tokenAt pc i1
      match ast_expect_token pc fnName TokenId.symbol with
      | .error e => .error e
      | .ok _ =>
        match ast_parse_param_decl_list fuel pc (i1 + 1) with
        | .error e => .error e
        | .ok (params, i2) =>
          let arrow := tokenAt pc i2
          if arrow.id = TokenId.arrow then
            match ast_parse_type fuel pc (i2 + 1) with
            | .error e => .error e
            | .ok (returnType, i3) =>
              .ok (some (AstNode.fnProto token.startLine token.startColumn
                    visibMod (ast_buf_from_token pc fnName) params returnType
                    directiveList), i3, none)
          else
            .ok (some (AstNode.fnProto token.startLine token.startColumn
                  visibMod (ast_buf_from_token pc fnName) params
                  (ast_create_void_type_node arrow) directiveList),
                  i2, none)

/-- Embedding of `ast_parse_fn_def`: `FnDef : FnProto Block`; the node takes the
proto's position (`ast_create_node_with_node`). -/
def ast_parse_fn_def (fuel : Nat) (pc : ParseContext)
    (directiveList : Option (List AstNode)) (tokenIndex : Nat)
    (mandatory : Bool) :
    Except PError (Option AstNode × Nat × Option (List AstNode)) :=
  match fuel with
  | 0 => .error fuelError
  | fuel + 1 =>
    match ast_parse_fn_proto fuel pc directiveList tokenIndex mandatory with
    | .error e => .error e
    | .ok (none, j, dl) => .ok (none, j, dl)
    | .ok (some fnProto, j, dl) =>
      match ast_parse_block fuel pc j true with
      | .error e => .error e
      | .ok (none, _) => .error fuelError
      | .ok (some body, j') =>
        .ok (some (AstNode.fnDef (astNodePos fnProto).1 (astNodePos fnProto).2
              fnProto body), j', dl)

/-- Embedding of `ast_parse_fn_decl`: `FnDecl : FnProto token(Semicolon)`; the node
takes the proto's position. -/
def ast_parse_fn_decl (fuel : Nat) (pc : ParseContext)
    (directiveList : Option (List AstNode)) (tokenIndex : Nat) :
    Except PError (AstNode × Nat × Option (List AstNode)) :=
  match fuel with
  | 0 => .error fuelError
  | fuel + 1 =>
    match ast_parse_fn_proto fuel pc directiveList tokenIndex true with
    | .error e => .error e
    | .ok (none, _, _) => .error fuelError
    | .ok (some fnProto, j, dl) =>
      let semicolon := tokenAt pc j
      match ast_expect_token pc semicolon TokenId.semicolon with
      | .error e => .error e
      | .ok _ =>
        .ok (AstNode.fnDecl (astNodePos fnProto).1 (astNodePos fnProto).2
              fnProto, j + 1, dl)

/-- The `for (;;)` loop of `ast_parse_extern_block`: each iteration
asserts the pending slot is empty, collects a fresh directive list, and
either errors on leftover directives at `}` or parses one `FnDecl`. -/
def ast_parse_extern_block_loop (fuel : Nat) (pc : ParseContext)
    (directiveList : Option (List AstNode)) (tokenIndex : Nat)
    (fnDecls : List AstNode) :
    Except PError (List AstNode × Nat × Option (List AstNode)) :=
  match fuel with
  | 0 => .error fuelError
  | fuel + 1 =>
    let directiveToken := tokenAt pc tokenIndex
    match directiveList with
    | some _ => .error assertError    -- assert(!pc->directive_list)
    | none =>
      match ast_parse_directives fuel pc tokenIndex [] with
      | .error e => .error e
      | .ok (directives, j) =>
        let token := tokenAt pc j
        if token.id = TokenId.rBrace then
          if directives.length > 0 then
            .error ⟨directiveToken.startLine, directiveToken.startColumn,
                    "invalid directive"⟩
          else
            .ok (fnDecls, j + 1, none)
        else
          match ast_parse_fn_decl fuel pc (some directives) j with
          | .error e => .error e
          | .ok (child, j', dl) =>
            ast_parse_extern_block_loop fuel pc dl j' (fnDecls ++ [child])
termination_by structural fuel

/-- Embedding of `ast_parse_extern_block`:
`ExternBlock : many(Directive) token(Extern) token(LBrace)
many(FnProtoDecl) token(RBrace)`.  The pending slot is attached to the
block node and cleared, then the `FnDecl` loop runs. -/
def ast_parse_extern_block (fuel : Nat) (pc : ParseContext)
    (directiveList : Option (List AstNode)) (tokenIndex : Nat)
    (mandatory : Bool) :
    Except PError (Option AstNode × Nat × Option (List AstNode)) :=
  match fuel with
  | 0 => .error fuelError
  | fuel + 1 =>
    let externKw := tokenAt pc tokenIndex
    if externKw.id ≠ TokenId.keywordExtern then
      if mandatory then .error (ast_invalid_token_error pc externKw)
      else .ok (none, tokenIndex, directiveList)
    else
      let lBrace := tokenAt pc (tokenIndex + 1)
      match ast_expect_token pc lBrace TokenId.lBrace with
      | .error e => .error e
      | .ok _ =>
        match ast_parse_extern_block_loop fuel pc none (tokenIndex + 2) [] with
        | .error e => .error e
        | .ok (fnDecls, j, dl) =>
          .ok (some (AstNode.externBlock externKw.startLine externKw.startColumn
                directiveList fnDecls), j, dl)

/-- Embedding of `ast_parse_root_export_decl`:
`RootExportDecl : many(Directive) token(Export) token(Symbol)
token(String) token(Semicolon)`, recognized by two-token lookahead. -/
def ast_parse_root_export_decl (pc : ParseContext)
    (directiveList : Option (List AstNode)) (tokenIndex : Nat) :
    Except PError (Option AstNode × Nat × Option (List AstNode)) :=
  let exportKw := tokenAt pc tokenIndex
  if exportKw.id ≠ TokenId.keywordExport then
    .ok (none, tokenIndex, directiveList)
  else
    let exportType := tokenAt pc (tokenIndex + 1)
    if exportType.id ≠ TokenId.symbol then
      .ok (none, tokenIndex, directiveList)
    else
      let exportName := tokenAt pc (tokenIndex + 2)
      match ast_expect_token pc exportName TokenId.stringLiteral with
      | .error e => .error e
      | .ok _ =>
        match parse_string_literal pc.buf exportName.startPos exportName.endPos with
        | none => .error assertError
        | some name =>
          let semicolon := tokenAt pc (tokenIndex + 3)
          match ast_expect_token pc semicolon TokenId.semicolon with
          | .error e => .error e
          | .ok _ =>
            .ok (some (AstNode.rootExportDecl exportKw.startLine
                  exportKw.startColumn (ast_buf_from_token pc exportType) name
                  directiveList), tokenIndex + 4, none)

/-- Embedding of `ast_parse_use`:
`Use : many(Directive) token(Use) token(String) token(Semicolon)`. -/
def ast_parse_use (pc : ParseContext) (directiveList : Option (List AstNode))
    (tokenIndex : Nat) :
    Except PError (Option AstNode × Nat × Option (List AstNode)) :=
  let useKw := tokenAt pc tokenIndex
  if useKw.id ≠ TokenId.keywordUse then
    .ok (none, tokenIndex, directiveList)
  else
    let useName := tokenAt pc (tokenIndex + 1)
    match ast_expect_token pc useName TokenId.stringLiteral with
    | .error e => .error e
    | .ok _ =>
      let semicolon := tokenAt pc (tokenIndex + 2)
      match ast_expect_token pc semicolon TokenId.semicolon with
      | .error e => .error e
      | .ok _ =>
        match parse_string_literal pc.buf useName.startPos useName.endPos with
        | none => .error assertError
        | some path =>
          .ok (some (AstNode.use useKw.startLine useKw.startColumn path
                directiveList), tokenIndex + 3, none)

/-- The top-level loop of `ast_parse_top_level_decls`: each iteration
asserts the pending slot is empty, collects a fresh directive list,
tries `RootExportDecl`, `FnDef`, `ExternBlock`, `Use` in that order, and
on no match either errors on leftover directives (at the first
directive's token) or terminates. -/
def ast_parse_top_level_decls (fuel : Nat) (pc : ParseContext)
    (directiveList : Option (List AstNode)) (tokenIndex : Nat)
    (topLevelDecls : List AstNode) :
    Except PError (List AstNode × Nat × Option (List AstNode)) :=
  match fuel with
  | 0 => .error fuelError
  | fuel + 1 =>
    let directiveToken := tokenAt pc tokenIndex
    match directiveList with
    | some _ => .error assertError    -- assert(!pc->directive_list)
    | none =>
      match ast_parse_directives fuel pc tokenIndex [] with
      | .error e => .error e
      | .ok (directives, i1) =>
        match ast_parse_root_export_decl pc (some directives) i1 with
        | .error e => .error e
        | .ok (some rootExportDeclNode, i2, dl) =>
          ast_parse_top_level_decls fuel pc dl i2
            (topLevelDecls ++ [rootExportDeclNode])
        | .ok (none, i2, dl) =>
          match ast_parse_fn_def fuel pc dl i2 false with
          | .error e => .error e
          | .ok (some fnDefNode, i3, dl') =>
            ast_parse_top_level_decls fuel pc dl' i3
              (topLevelDecls ++ [fnDefNode])
          | .ok (none, i3, dl') =>
            match ast_parse_extern_block fuel pc dl' i3 false with
            | .error e => .error e
            | .ok (some externNode, i4, dl'') =>
              ast_parse_top_level_decls fuel pc dl'' i4
                (topLevelDecls ++ [externNode])
            | .ok (none, i4, dl'') =>
              match ast_parse_use pc dl'' i4 with
              | .error e => .error e
              | .ok (some useNode, i5, dl3) =>
                ast_parse_top_level_decls fuel pc dl3 i5
                  (topLevelDecls ++ [useNode])
              | .ok (none, i5, _) =>
                if directives.length > 0 then
                  .error ⟨directiveToken.startLine, directiveToken.startColumn,
                          "invalid directive"⟩
                else
                  .ok (topLevelDecls, i5, none)
termination_by structural fuel

/-- Embedding of `ast_parse_root`: `Root : many(TopLevelDecl) token(EOF)`; after the
declaration loop the cursor must sit exactly at the final token, else
the current token is reported as invalid. -/
def ast_parse_root (fuel : Nat) (pc : ParseContext) (tokenIndex : Nat) :
    Except PError (AstNode × Nat) :=
  match fuel with
  | 0 => .error fuelError
  | fuel + 1 =>
    let firstToken := tokenAt pc tokenIndex
    match ast_parse_top_level_decls fuel pc none tokenIndex [] with
    | .error e => .error e
    | .ok (topLevelDecls, j, _) =>
      if j ≠ pc.tokens.length - 1 then
        .error (ast_invalid_token_error pc (tokenAt pc j))
      else
        .ok (AstNode.root firstToken.startLine firstToken.startColumn
              topLevelDecls, j)

/-- Embedding of `ast_parse`: the session entry point, starting at token index 0 with
an empty (null) pending directive slot. -/
def ast_parse (fuel : Nat) (buf : List Char) (tokens : List Token) :
    Except PError (AstNode × Nat) :=
  ast_parse_root fuel ⟨buf, tokens⟩ 0

/-- The `return_type` slot of a `FnProto` node (none for other kinds). -/
def fnProtoReturnType : AstNode → Option AstNode
  | AstNode.fnProto _ _ _ _ _ returnType _ => some returnType
  | _ => none

/-- The `directives` slot of the four declaration kinds that carry one
(none for other kinds). -/
def astNodeDirectives : AstNode → Option (Option (List AstNode))
  | AstNode.rootExportDecl _ _ _ _ d => some d
  | AstNode.use _ _ _ d => some d
  | AstNode.externBlock _ _ d _ => some d
  | AstNode.fnProto _ _ _ _ _ _ d => some d
  | _ => none

/-- Whether a node is a `Directive` node. -/
def isDirectiveNode : AstNode → Bool
  | AstNode.directive _ _ _ _ => true
  | _ => false

/-- Whether a `directives` slot is empty (null) or holds only
`Directive` nodes. -/
def dirListOk (d : Option (List AstNode)) : Bool :=
  match d with
  | none => true
  | some l => l.all isDirectiveNode

mutual

/-- Wellformedness of directive placement in a tree: the node itself
is not a `Directive`, every `directives` slot holds only `Directive`
nodes, and every other child recursively satisfies the same — i.e. a
`Directive` node occurs exactly as a member of some declaration's
directive list and nowhere else. -/
def noStrayDirective : AstNode → Bool
  | AstNode.root _ _ topLevelDecls => noStrayDirectiveList topLevelDecls
  | AstNode.rootExportDecl _ _ _ _ d => dirListOk d
  | AstNode.use _ _ _ d => dirListOk d
  | AstNode.externBlock _ _ d fnDecls =>
      dirListOk d && noStrayDirectiveList fnDecls
  | AstNode.fnDef _ _ fnProto body =>
      noStrayDirective fnProto && noStrayDirective body
  | AstNode.fnDecl _ _ fnProto => noStrayDirective fnProto
  | AstNode.fnProto _ _ _ _ params returnType d =>
      dirListOk d && noStrayDirectiveList params && noStrayDirective returnType
  | AstNode.paramDecl _ _ _ type => noStrayDirective type
  | AstNode.typePrimitive _ _ _ => true
  | AstNode.typePointer _ _ _ childType => noStrayDirective childType
  | AstNode.block _ _ statements => noStrayDirectiveList statements
  | AstNode.binOpExpr _ _ _ op1 op2 =>
      noStrayDirective op1 && noStrayDirective op2
  | AstNode.prefixOpExpr _ _ _ primaryExpr => noStrayDirective primaryExpr
  | AstNode.castExpr _ _ prefixOpExprNode type =>
      noStrayDirective prefixOpExprNode && noStrayDirective type
  | AstNode.fnCallExpr _ _ fnRefExpr params =>
      noStrayDirective fnRefExpr && noStrayDirectiveList params
  | AstNode.returnExpr _ _ expr =>
      match expr with
      | none => true
      | some e => noStrayDirective e
  | AstNode.numberLiteral _ _ _ => true
  | AstNode.stringLiteral _ _ _ => true
  | AstNode.symbol _ _ _ => true
  | AstNode.unreachable _ _ => true
  | AstNode.directive _ _ _ _ => false

/-- List form of `noStrayDirective`. -/
def noStrayDirectiveList : List AstNode → Bool
  | [] => true
  | n :: ns => noStrayDirective n && noStrayDirectiveList ns

end

/-- Helper to build a one-line token: kind, byte range, line 1, and the
1-based column implied by the byte offset. -/
def mkTok (id : TokenId) (s e : Nat) : Token := ⟨id, s, e, 1, s + 1⟩

/-- Source text of the program `fn f() { 1 + 2; }`. -/
def srcAddTwo : List Char := "fn f() \x7b 1 + 2; \x7d".toList

/-- Token sequence for `fn f() { 1 + 2; }` (with EOF sentinel). -/
def toksAddTwo : List Token :=
  [mkTok TokenId.keywordFn 0 2, mkTok TokenId.symbol 3 4,
   mkTok TokenId.lParen 4 5, mkTok TokenId.rParen 5 6,
   mkTok TokenId.lBrace 7 8, mkTok TokenId.numberLiteral 9 10,
   mkTok TokenId.plus 11 12, mkTok TokenId.numberLiteral 13 14,
   mkTok TokenId.semicolon 14 15, mkTok TokenId.rBrace 16 17,
   mkTok TokenId.eof 17 17]

/-- Source text of the program `fn f() { 1 + 2 + 3; }`. -/
def srcAddChain : List Char := "fn f() \x7b 1 + 2 + 3; \x7d".toList

/-- Token sequence for `fn f() { 1 + 2 + 3; }` (with EOF sentinel). -/
def toksAddChain : List Token :=
  [mkTok TokenId.keywordFn 0 2, mkTok TokenId.symbol 3 4,
   mkTok TokenId.lParen 4 5, mkTok TokenId.rParen 5 6,
   mkTok TokenId.lBrace 7 8, mkTok TokenId.numberLiteral 9 10,
   mkTok TokenId.plus 11 12, mkTok TokenId.numberLiteral 13 14,
   mkTok TokenId.plus 15 16, mkTok TokenId.numberLiteral 17 18,
   mkTok TokenId.semicolon 18 19, mkTok TokenId.rBrace 20 21,
   mkTok TokenId.eof 21 21]

/-- Source text of the spec's scenario S6: `fn f() { 1 + 2 * 3 - 4; }`. -/
def srcS6 : List Char := "fn f() \x7b 1 + 2 * 3 - 4; \x7d".toList

/-- Token sequence for `fn f() { 1 + 2 * 3 - 4; }` (with EOF sentinel). -/
def toksS6 : List Token :=
  [mkTok TokenId.keywordFn 0 2, mkTok TokenId.symbol 3 4,
   mkTok TokenId.lParen 4 5, mkTok TokenId.rParen 5 6,
   mkTok TokenId.lBrace 7 8, mkTok TokenId.numberLiteral 9 10,
   mkTok TokenId.plus 11 12, mkTok TokenId.numberLiteral 13 14,
   mkTok TokenId.star 15 16, mkTok TokenId.numberLiteral 17 18,
   mkTok TokenId.dash 19 20, mkTok TokenId.numberLiteral 21 22,
   mkTok TokenId.semicolon 22 23, mkTok TokenId.rBrace 24 25,
   mkTok TokenId.eof 25 25]

/-- Context for the expression `a + b * c`. -/
def pcAddMul : ParseContext :=
  ⟨"a + b * c".toList,
   [mkTok TokenId.symbol 0 1, mkTok TokenId.plus 2 3, mkTok TokenId.symbol 4 5,
    mkTok TokenId.star 6 7, mkTok TokenId.symbol 8 9, mkTok TokenId.eof 9 9]⟩

/-- Context for the expression `a * b + c`. -/
def pcMulAdd : ParseContext :=
  ⟨"a * b + c".toList,
   [mkTok TokenId.symbol 0 1, mkTok TokenId.star 2 3, mkTok TokenId.symbol 4 5,
    mkTok TokenId.plus 6 7, mkTok TokenId.symbol 8 9, mkTok TokenId.eof 9 9]⟩

/-- Context for the expression `a as T * b`. -/
def pcCastMul : ParseContext :=
  ⟨"a as T * b".toList,
   [mkTok TokenId.symbol 0 1, mkTok TokenId.keywordAs 2 4,
    mkTok TokenId.symbol 5 6, mkTok TokenId.star 7 8,
    mkTok TokenId.symbol 9 10, mkTok TokenId.eof 10 10]⟩

/-- Context for the expression `!a + b`. -/
def pcNotAdd : ParseContext :=
  ⟨"!a + b".toList,
   [mkTok TokenId.bang 0 1, mkTok TokenId.symbol 1 2, mkTok TokenId.plus 3 4,
    mkTok TokenId.symbol 5 6, mkTok TokenId.eof 6 6]⟩

/-- Context for the expression `a && b || c`. -/
def pcAndOr : ParseContext :=
  ⟨"a && b || c".toList,
   [mkTok TokenId.symbol 0 1, mkTok TokenId.boolAnd 2 4,
    mkTok TokenId.symbol 5 6, mkTok TokenId.boolOr 7 9,
    mkTok TokenId.symbol 10 11, mkTok TokenId.eof 11 11]⟩

/-- Context for an expression `a CMP b | c` where the comparison operator
occupies bytes 2-4 (only symbol lexemes feed the AST, so the same source
text serves all six comparison operators). -/
def pcCmpOr (cmpId : TokenId) : ParseContext :=
  ⟨"a ?? b | c".toList,
   [mkTok TokenId.symbol 0 1, mkTok cmpId 2 4, mkTok TokenId.symbol 5 6,
    mkTok TokenId.binOr 7 8, mkTok TokenId.symbol 9 10, mkTok TokenId.eof 10 10]⟩


/-- State-machine form of the specification decoder, processing one byte
at a time with an explicit escape flag; returns the decoded bytes and
the final flag. -/
def specDecodeEsc : Bool → List Char → List Char × Bool
  | escape, [] => ([], escape)
  | true, c :: rest =>
    let r := specDecodeEsc false rest
    (specEscByte c ++ r.1, r.2)
  | false, c :: rest =>
    if c = '\\' then specDecodeEsc true rest
    else
      let r := specDecodeEsc false rest
      (c :: r.1, r.2)



/-- Context for the expression `1 + 2`. -/
def pcOnePlusTwo : ParseContext :=
  ⟨"1 + 2".toList,
   [mkTok TokenId.numberLiteral 0 1, mkTok TokenId.plus 2 3,
    mkTok TokenId.numberLiteral 4 5, mkTok TokenId.eof 5 5]⟩

/-- Context for the expression `( 1 )`. -/
def pcGroupedOne : ParseContext :=
  ⟨"( 1 )".toList,
   [mkTok TokenId.lParen 0 1, mkTok TokenId.numberLiteral 2 3,
    mkTok TokenId.rParen 4 5, mkTok TokenId.eof 5 5]⟩

/-- Context for the prototype `fn f()` with no arrow (EOF follows). -/
def pcFnVoid : ParseContext :=
  ⟨"fn f()".toList,
   [mkTok TokenId.keywordFn 0 2, mkTok TokenId.symbol 3 4,
    mkTok TokenId.lParen 4 5, mkTok TokenId.rParen 5 6, mkTok TokenId.eof 6 6]⟩

/-- Context for the empty program (just the EOF sentinel). -/
def pcOnlyEof : ParseContext := ⟨[], [mkTok TokenId.eof 0 0]⟩

/-- Context for the program consisting of one stray `}`. -/
def pcStray : ParseContext :=
  ⟨"\x7d".toList, [mkTok TokenId.rBrace 0 1, mkTok TokenId.eof 1 1]⟩

/-- Context for the program `#foo("x") 1`: a directive followed by no
declaration. -/
def pcOrphanTop : ParseContext :=
  ⟨"#foo(\"x\") 1".toList,
   [mkTok TokenId.numberSign 0 1, mkTok TokenId.symbol 1 4,
    mkTok TokenId.lParen 4 5, mkTok TokenId.stringLiteral 5 8,
    mkTok TokenId.rParen 8 9, mkTok TokenId.numberLiteral 10 11,
    mkTok TokenId.eof 11 11]⟩

/-- Context for the program `extern { #a("b") }`: a directive before the
closing brace of an extern block. -/
def pcExternOrphan : ParseContext :=
  ⟨"extern \x7b #a(\"b\") \x7d".toList,
   [mkTok TokenId.keywordExtern 0 6, mkTok TokenId.lBrace 7 8,
    mkTok TokenId.numberSign 9 10, mkTok TokenId.symbol 10 11,
    mkTok TokenId.lParen 11 12, mkTok TokenId.stringLiteral 12 15,
    mkTok TokenId.rParen 15 16, mkTok TokenId.rBrace 17 18,
    mkTok TokenId.eof 18 18]⟩

/-- Context for the program `#foo("x") fn f() {}`. -/
def pcDirFn : ParseContext :=
  ⟨"#foo(\"x\") fn f() \x7b\x7d".toList,
   [mkTok TokenId.numberSign 0 1, mkTok TokenId.symbol 1 4,
    mkTok TokenId.lParen 4 5, mkTok TokenId.stringLiteral 5 8,
    mkTok TokenId.rParen 8 9, mkTok TokenId.keywordFn 10 12,
    mkTok TokenId.symbol 13 14, mkTok TokenId.lParen 14 15,
    mkTok TokenId.rParen 15 16, mkTok TokenId.lBrace 17 18,
    mkTok TokenId.rBrace 18 19, mkTok TokenId.eof 19 19]⟩

/-- The source bytes of the string literal `"\\\n\r\t\""` (the token
spans all twelve bytes, quotes included). -/
def srcFiveEscapes : List Char :=
  ['"', '\\', '\\', '\\', 'n', '\\', 'r', '\\', 't', '\\', '"', '"']



/-- Context for the prototype `fn f() -> T`. -/
def pcFnArrow : ParseContext :=
  ⟨"fn f() -> T".toList,
   [mkTok TokenId.keywordFn 0 2, mkTok TokenId.symbol 3 4,
    mkTok TokenId.lParen 4 5, mkTok TokenId.rParen 5 6,
    mkTok TokenId.arrow 7 9, mkTok TokenId.symbol 10 11,
    mkTok TokenId.eof 11 11]⟩



/-- The directive-wellformedness of an optional-node parse result: holds
when the produced node (if any) has no stray Directive. -/
def optResultNoStray (r : Option AstNode × Nat) : Prop :=
  match r.1 with
  | none => True
  | some n => noStrayDirective n = true

/-- The directive-wellformedness of a node-list parse result. -/
def listResultNoStray (r : List AstNode × Nat) : Prop :=
  r.1.all noStrayDirective = true

/-- The directive-wellformedness of a mandatory-node parse result. -/
def nodeResultNoStray (r : AstNode × Nat) : Prop :=
  noStrayDirective r.1 = true



/-- Context for the program `use "a";`. -/
def pcUseW : ParseContext :=
  ⟨"use \"a\";".toList,
   [mkTok TokenId.keywordUse 0 3, mkTok TokenId.stringLiteral 4 7,
    mkTok TokenId.semicolon 7 8, mkTok TokenId.eof 8 8]⟩

/-- Context for the program `export exe "h";`. -/
def pcExportW : ParseContext :=
  ⟨"export exe \"h\";".toList,
   [mkTok TokenId.keywordExport 0 6, mkTok TokenId.symbol 7 10,
    mkTok TokenId.stringLiteral 11 14, mkTok TokenId.semicolon 14 15,
    mkTok TokenId.eof 15 15]⟩

/-- Context for the program `extern { }`. -/
def pcExternW : ParseContext :=
  ⟨"extern \x7b \x7d".toList,
   [mkTok TokenId.keywordExtern 0 6, mkTok TokenId.lBrace 7 8,
    mkTok TokenId.rBrace 9 10, mkTok TokenId.eof 10 10]⟩



/-- Context for an expression `a OP b` whose operator token occupies
bytes 2-4 (the operator's lexeme never reaches the AST, so the same
source text serves every binary operator). -/
def pcBinOp (opId : TokenId) : ParseContext :=
  ⟨"a ?? b".toList,
   [mkTok TokenId.symbol 0 1, mkTok opId 2 4, mkTok TokenId.symbol 5 6,
    mkTok TokenId.eof 6 6]⟩


/-- C1.  The claim says chains `a₁ op a₂ op … op aₙ` of same-precedence
operators parse to a left-spine tree of depth n−1, the per-level parse
iterating.  The code's binary levels fold at most one operator pair
(no loop), so already `fn f() { 1 + 2 + 3; }` does not parse: after
folding `1 + 2` the cursor rests on the second `+` (line 1, column 16)
and the statement's semicolon check aborts with `invalid token: '+'`. -/
theorem c1_chain_of_three_aborts :
    ast_parse 100 srcAddChain toksAddChain =
      Except.error ⟨1, 16, "invalid token: '+'"⟩ := by
  rfl

/-- C2, counterexample.  Parsing `fn f() { 1 + 2; }` succeeds, and the
`BinOpExpr` statement node records line 1 column 12 — the `+` operator
token's position — whereas the first token consumed by its production is
the `1` (token index 5, column 10, recorded in the left operand).  So a
node's line/column is NOT always that of the first token its production
consumed. -/
theorem c2_counterexample :
    ast_parse 100 srcAddTwo toksAddTwo =
      Except.ok (AstNode.root 1 1
        [AstNode.fnDef 1 1
          (AstNode.fnProto 1 1 FnProtoVisibMod.visibPrivate ['f'] []
            (AstNode.typePrimitive 1 8 "void".toList) (some []))
          (AstNode.block 1 8
            [AstNode.binOpExpr 1 12 BinOpType.add
              (AstNode.numberLiteral 1 10 ['1'])
              (AstNode.numberLiteral 1 14 ['2'])])], 10)
    ∧ (tokenAt ⟨srcAddTwo, toksAddTwo⟩ 5).startColumn = 10
    ∧ astNodePos (AstNode.binOpExpr 1 12 BinOpType.add
        (AstNode.numberLiteral 1 10 ['1'])
        (AstNode.numberLiteral 1 14 ['2'])) ≠ (1, 10) := by
  exact ⟨rfl, rfl, by decide⟩

/-- C3.  The spec's scenario S6 claims `fn f() { 1 + 2 * 3 - 4; }`
parses to `BinOpExpr(−, BinOpExpr(+, 1, BinOpExpr(*, 2, 3)), 4)`.  The
single-shot additive level folds `1 + 2 * 3` and returns with the cursor
on the `-` (line 1, column 20); the statement's semicolon check then
aborts with `invalid token: '-'`, so the input does not parse at all. -/
theorem c3_s6_scenario_aborts :
    ast_parse 100 srcS6 toksS6 =
      Except.error ⟨1, 20, "invalid token: '-'"⟩ := by
  rfl

/-- C4.  The precedence ladder: `a + b * c` parses as `a + (b * c)`,
`a * b + c` as `(a * b) + c`, `a as T * b` as `(a as T) * b`,
`!a + b` as `(!a) + b`, `a && b || c` as `(a && b) || c`, and for every
comparison operator `cmp` of `==`, `!=`, `<`, `>`, `<=`, `>=` the
expression `a cmp b | c` parses as `a cmp (b | c)` — all six comparison
operators bind looser than `|`. -/
theorem c4_precedence_ladder :
    ast_parse_expression 100 pcAddMul 0 true =
      Except.ok (some (AstNode.binOpExpr 1 3 BinOpType.add
        (AstNode.symbol 1 1 ['a'])
        (AstNode.binOpExpr 1 7 BinOpType.mult (AstNode.symbol 1 5 ['b'])
          (AstNode.symbol 1 9 ['c']))), 5)
    ∧ ast_parse_expression 100 pcMulAdd 0 true =
      Except.ok (some (AstNode.binOpExpr 1 7 BinOpType.add
        (AstNode.binOpExpr 1 3 BinOpType.mult (AstNode.symbol 1 1 ['a'])
          (AstNode.symbol 1 5 ['b']))
        (AstNode.symbol 1 9 ['c'])), 5)
    ∧ ast_parse_expression 100 pcCastMul 0 true =
      Except.ok (some (AstNode.binOpExpr 1 8 BinOpType.mult
        (AstNode.castExpr 1 3 (AstNode.symbol 1 1 ['a'])
          (AstNode.typePrimitive 1 6 ['T']))
        (AstNode.symbol 1 10 ['b'])), 5)
    ∧ ast_parse_expression 100 pcNotAdd 0 true =
      Except.ok (some (AstNode.binOpExpr 1 4 BinOpType.add
        (AstNode.prefixOpExpr 1 1 PrefixOp.boolNot (AstNode.symbol 1 2 ['a']))
        (AstNode.symbol 1 6 ['b'])), 4)
    ∧ ast_parse_expression 100 pcAndOr 0 true =
      Except.ok (some (AstNode.binOpExpr 1 8 BinOpType.boolOr
        (AstNode.binOpExpr 1 3 BinOpType.boolAnd (AstNode.symbol 1 1 ['a'])
          (AstNode.symbol 1 6 ['b']))
        (AstNode.symbol 1 11 ['c'])), 5)
    ∧ ast_parse_expression 100 (pcCmpOr TokenId.cmpEq) 0 true =
      Except.ok (some (AstNode.binOpExpr 1 3 BinOpType.cmpEq
        (AstNode.symbol 1 1 ['a'])
        (AstNode.binOpExpr 1 8 BinOpType.binOr (AstNode.symbol 1 6 ['b'])
          (AstNode.symbol 1 10 ['c']))), 5)
    ∧ ast_parse_expression 100 (pcCmpOr TokenId.cmpNotEq) 0 true =
      Except.ok (some (AstNode.binOpExpr 1 3 BinOpType.cmpNotEq
        (AstNode.symbol 1 1 ['a'])
        (AstNode.binOpExpr 1 8 BinOpType.binOr (AstNode.symbol 1 6 ['b'])
          (AstNode.symbol 1 10 ['c']))), 5)
    ∧ ast_parse_expression 100 (pcCmpOr TokenId.cmpLessThan) 0 true =
      Except.ok (some (AstNode.binOpExpr 1 3 BinOpType.cmpLessThan
        (AstNode.symbol 1 1 ['a'])
        (AstNode.binOpExpr 1 8 BinOpType.binOr (AstNode.symbol 1 6 ['b'])
          (AstNode.symbol 1 10 ['c']))), 5)
    ∧ ast_parse_expression 100 (pcCmpOr TokenId.cmpGreaterThan) 0 true =
      Except.ok (some (AstNode.binOpExpr 1 3 BinOpType.cmpGreaterThan
        (AstNode.symbol 1 1 ['a'])
        (AstNode.binOpExpr 1 8 BinOpType.binOr (AstNode.symbol 1 6 ['b'])
          (AstNode.symbol 1 10 ['c']))), 5)
    ∧ ast_parse_expression 100 (pcCmpOr TokenId.cmpLessOrEq) 0 true =
      Except.ok (some (AstNode.binOpExpr 1 3 BinOpType.cmpLessOrEq
        (AstNode.symbol 1 1 ['a'])
        (AstNode.binOpExpr 1 8 BinOpType.binOr (AstNode.symbol 1 6 ['b'])
          (AstNode.symbol 1 10 ['c']))), 5)
    ∧ ast_parse_expression 100 (pcCmpOr TokenId.cmpGreaterOrEq) 0 true =
      Except.ok (some (AstNode.binOpExpr 1 3 BinOpType.cmpGreaterOrEq
        (AstNode.symbol 1 1 ['a'])
        (AstNode.binOpExpr 1 8 BinOpType.binOr (AstNode.symbol 1 6 ['b'])
          (AstNode.symbol 1 10 ['c']))), 5) := by
  exact ⟨rfl, rfl, rfl, rfl, rfl, rfl, rfl, rfl, rfl, rfl, rfl⟩

/-- C9.  After the top-level declaration loop, `ast_parse_root` succeeds
(returning the Root node with the collected declarations) if and only if
the cursor sits exactly at the final EOF sentinel (index
`tokens.length - 1`); otherwise the token at the cursor is reported as
`invalid token: '<lexeme>'`. -/
theorem c9_root_succeeds_iff_cursor_at_eof
    (fuel : Nat) (pc : ParseContext) (i : Nat) (decls : List AstNode)
    (j : Nat) (dl : Option (List AstNode))
    (h : ast_parse_top_level_decls fuel pc none i [] = Except.ok (decls, j, dl)) :
    (j = pc.tokens.length - 1 →
      ast_parse_root (fuel + 1) pc i =
        Except.ok (AstNode.root (tokenAt pc i).startLine
          (tokenAt pc i).startColumn decls, j))
    ∧ (j ≠ pc.tokens.length - 1 →
      ast_parse_root (fuel + 1) pc i =
        Except.error (ast_invalid_token_error pc (tokenAt pc j))) := by
  constructor <;> intro hj <;> simp [ast_parse_root, h, hj]

/-- Witness for C9: the empty program parses to an empty Root (cursor at
the EOF sentinel), while a stray `}` at top level is reported as
`invalid token: '}'`. -/
theorem c9_root_succeeds_iff_cursor_at_eof_witness :
    ast_parse_root 100 pcOnlyEof 0 =
      Except.ok (AstNode.root (tokenAt pcOnlyEof 0).startLine
        (tokenAt pcOnlyEof 0).startColumn [], 0)
    ∧ ast_parse_root 100 pcStray 0 =
      Except.error (ast_invalid_token_error pcStray (tokenAt pcStray 0)) := by
  exact ⟨(c9_root_succeeds_iff_cursor_at_eof 99 pcOnlyEof 0 [] 0 none rfl).1 rfl,
         (c9_root_succeeds_iff_cursor_at_eof 99 pcStray 0 [] 0 none rfl).2
           (by decide)⟩

/-- C10.  Parsing a parenthesized expression `( e )` returns exactly the
node produced by parsing `e`: `ast_parse_grouped_expr` consumes the
parentheses and passes the inner node through unchanged (no wrapper
node, so kind, payload, children and position are the inner
expression's), and `ast_parse_primary_expr` likewise returns that very
node. -/
theorem c10_parenthesization_unobservable
    (fuel : Nat) (pc : ParseContext) (i : Nat) (m : Bool) (e : AstNode) (j : Nat)
    (h1 : (tokenAt pc i).id = TokenId.lParen)
    (h2 : ast_parse_expression fuel pc (i + 1) true = Except.ok (some e, j))
    (h3 : (tokenAt pc j).id = TokenId.rParen) :
    ast_parse_grouped_expr (fuel + 1) pc i m = Except.ok (some e, j + 1)
    ∧ ast_parse_primary_expr (fuel + 2) pc i m = Except.ok (some e, j + 1) := by
  have hgAll : ∀ m', ast_parse_grouped_expr (fuel + 1) pc i m' =
      Except.ok (some e, j + 1) := by
    intro m'
    simp [ast_parse_grouped_expr, h1, h2, ast_expect_token, h3]
  refine ⟨hgAll m, ?_⟩
  simp [ast_parse_primary_expr, h1, ast_parse_block, hgAll false]

/-- Witness for C10: `( 1 )` parses to the bare NumberLiteral node of
the inner `1`, both at the grouped-expression level and at the
primary-expression level. -/
theorem c10_parenthesization_unobservable_witness :
    ast_parse_grouped_expr 100 pcGroupedOne 0 false =
      Except.ok (some (AstNode.numberLiteral 1 3 ['1']), 3)
    ∧ ast_parse_primary_expr 101 pcGroupedOne 0 false =
      Except.ok (some (AstNode.numberLiteral 1 3 ['1']), 3) := by
  exact c10_parenthesization_unobservable 99 pcGroupedOne 0 false
    (AstNode.numberLiteral 1 3 ['1']) 2 rfl rfl rfl

/-- C2, amended.  Every `BinOpExpr` node the parser creates records the
line/column of its binary operator token, at each of the nine binary
levels (`||`, `&&`, the six comparisons, `|`, `^`, `&`, `<<`/`>>`,
`+`/`-`, `*`/`/`/`%`), and every `CastExpr` node records the
line/column of its `as` keyword token — not the position of the first
token consumed by its production (the first token of its left
operand). -/
theorem c2_amended_operator_token_positions :
    (∀ (fuel : Nat) (pc : ParseContext) (i : Nat) (m : Bool) (n1 : AstNode)
        (j : Nat) (n2 : AstNode) (j2 : Nat),
      ast_parse_bool_and_expr fuel pc i m = Except.ok (some n1, j) →
      (tokenAt pc j).id = TokenId.boolOr →
      ast_parse_bool_and_expr fuel pc (j + 1) true = Except.ok (some n2, j2) →
      ast_parse_bool_or_expr (fuel + 1) pc i m =
        Except.ok (some (AstNode.binOpExpr (tokenAt pc j).startLine
          (tokenAt pc j).startColumn BinOpType.boolOr n1 n2), j2))
    ∧ (∀ (fuel : Nat) (pc : ParseContext) (i : Nat) (m : Bool) (n1 : AstNode)
        (j : Nat) (n2 : AstNode) (j2 : Nat),
      ast_parse_comparison_expr fuel pc i m = Except.ok (some n1, j) →
      (tokenAt pc j).id = TokenId.boolAnd →
      ast_parse_comparison_expr fuel pc (j + 1) true = Except.ok (some n2, j2) →
      ast_parse_bool_and_expr (fuel + 1) pc i m =
        Except.ok (some (AstNode.binOpExpr (tokenAt pc j).startLine
          (tokenAt pc j).startColumn BinOpType.boolAnd n1 n2), j2))
    ∧ (∀ (fuel : Nat) (pc : ParseContext) (i : Nat) (m : Bool) (n1 : AstNode)
        (j : Nat) (op : BinOpType) (n2 : AstNode) (j2 : Nat),
      ast_parse_bin_or_expr fuel pc i m = Except.ok (some n1, j) →
      tok_to_cmp_op (tokenAt pc j) = op → op ≠ BinOpType.invalid →
      ast_parse_bin_or_expr fuel pc (j + 1) true = Except.ok (some n2, j2) →
      ast_parse_comparison_expr (fuel + 1) pc i m =
        Except.ok (some (AstNode.binOpExpr (tokenAt pc j).startLine
          (tokenAt pc j).startColumn op n1 n2), j2))
    ∧ (∀ (fuel : Nat) (pc : ParseContext) (i : Nat) (m : Bool) (n1 : AstNode)
        (j : Nat) (n2 : AstNode) (j2 : Nat),
      ast_parse_bin_xor_expr fuel pc i m = Except.ok (some n1, j) →
      (tokenAt pc j).id = TokenId.binOr →
      ast_parse_bin_xor_expr fuel pc (j + 1) true = Except.ok (some n2, j2) →
      ast_parse_bin_or_expr (fuel + 1) pc i m =
        Except.ok (some (AstNode.binOpExpr (tokenAt pc j).startLine
          (tokenAt pc j).startColumn BinOpType.binOr n1 n2), j2))
    ∧ (∀ (fuel : Nat) (pc : ParseContext) (i : Nat) (m : Bool) (n1 : AstNode)
        (j : Nat) (n2 : AstNode) (j2 : Nat),
      ast_parse_bin_and_expr fuel pc i m = Except.ok (some n1, j) →
      (tokenAt pc j).id = TokenId.binXor →
      ast_parse_bin_and_expr fuel pc (j + 1) true = Except.ok (some n2, j2) →
      ast_parse_bin_xor_expr (fuel + 1) pc i m =
        Except.ok (some (AstNode.binOpExpr (tokenAt pc j).startLine
          (tokenAt pc j).startColumn BinOpType.binXor n1 n2), j2))
    ∧ (∀ (fuel : Nat) (pc : ParseContext) (i : Nat) (m : Bool) (n1 : AstNode)
        (j : Nat) (n2 : AstNode) (j2 : Nat),
      ast_parse_bit_shift_expr fuel pc i m = Except.ok (some n1, j) →
      (tokenAt pc j).id = TokenId.binAnd →
      ast_parse_bit_shift_expr fuel pc (j + 1) true = Except.ok (some n2, j2) →
      ast_parse_bin_and_expr (fuel + 1) pc i m =
        Except.ok (some (AstNode.binOpExpr (tokenAt pc j).startLine
          (tokenAt pc j).startColumn BinOpType.binAnd n1 n2), j2))
    ∧ (∀ (fuel : Nat) (pc : ParseContext) (i : Nat) (m : Bool) (n1 : AstNode)
        (j : Nat) (op : BinOpType) (n2 : AstNode) (j2 : Nat),
      ast_parse_add_expr fuel pc i m = Except.ok (some n1, j) →
      tok_to_bit_shift_op (tokenAt pc j) = op → op ≠ BinOpType.invalid →
      ast_parse_add_expr fuel pc (j + 1) true = Except.ok (some n2, j2) →
      ast_parse_bit_shift_expr (fuel + 1) pc i m =
        Except.ok (some (AstNode.binOpExpr (tokenAt pc j).startLine
          (tokenAt pc j).startColumn op n1 n2), j2))
    ∧ (∀ (fuel : Nat) (pc : ParseContext) (i : Nat) (m : Bool) (n1 : AstNode)
        (j : Nat) (op : BinOpType) (n2 : AstNode) (j2 : Nat),
      ast_parse_mult_expr fuel pc i m = Except.ok (some n1, j) →
      tok_to_add_op (tokenAt pc j) = op → op ≠ BinOpType.invalid →
      ast_parse_mult_expr fuel pc (j + 1) true = Except.ok (some n2, j2) →
      ast_parse_add_expr (fuel + 1) pc i m =
        Except.ok (some (AstNode.binOpExpr (tokenAt pc j).startLine
          (tokenAt pc j).startColumn op n1 n2), j2))
    ∧ (∀ (fuel : Nat) (pc : ParseContext) (i : Nat) (m : Bool) (n1 : AstNode)
        (j : Nat) (op : BinOpType) (n2 : AstNode) (j2 : Nat),
      ast_parse_cast_expression fuel pc i m = Except.ok (some n1, j) →
      tok_to_mult_op (tokenAt pc j) = op → op ≠ BinOpType.invalid →
      ast_parse_cast_expression fuel pc (j + 1) true = Except.ok (some n2, j2) →
      ast_parse_mult_expr (fuel + 1) pc i m =
        Except.ok (some (AstNode.binOpExpr (tokenAt pc j).startLine
          (tokenAt pc j).startColumn op n1 n2), j2))
    ∧ (∀ (fuel : Nat) (pc : ParseContext) (i : Nat) (m : Bool) (n1 : AstNode)
        (j : Nat) (t : AstNode) (j2 : Nat),
      ast_parse_prefix_op_expr fuel pc i m = Except.ok (some n1, j) →
      (tokenAt pc j).id = TokenId.keywordAs →
      ast_parse_type fuel pc (j + 1) = Except.ok (t, j2) →
      ast_parse_cast_expression (fuel + 1) pc i m =
        Except.ok (some (AstNode.castExpr (tokenAt pc j).startLine
          (tokenAt pc j).startColumn n1 t), j2)) := by
  refine ⟨?_, ?_, ?_, ?_, ?_, ?_, ?_, ?_, ?_, ?_⟩
  · intro fuel pc i m n1 j n2 j2 h1 hop h2
    simp [ast_parse_bool_or_expr, h1, hop, h2]
  · intro fuel pc i m n1 j n2 j2 h1 hop h2
    simp [ast_parse_bool_and_expr, h1, hop, h2]
  · intro fuel pc i m n1 j op n2 j2 h1 hop hne h2
    cases op <;> first
      | exact absurd rfl hne
      | simp [ast_parse_comparison_expr, ast_parse_comparison_operator, h1, hop, h2]
  · intro fuel pc i m n1 j n2 j2 h1 hop h2
    simp [ast_parse_bin_or_expr, h1, hop, h2]
  · intro fuel pc i m n1 j n2 j2 h1 hop h2
    simp [ast_parse_bin_xor_expr, h1, hop, h2]
  · intro fuel pc i m n1 j n2 j2 h1 hop h2
    simp [ast_parse_bin_and_expr, h1, hop, h2]
  · intro fuel pc i m n1 j op n2 j2 h1 hop hne h2
    cases op <;> first
      | exact absurd rfl hne
      | simp [ast_parse_bit_shift_expr, ast_parse_bit_shift_op, h1, hop, h2]
  · intro fuel pc i m n1 j op n2 j2 h1 hop hne h2
    cases op <;> first
      | exact absurd rfl hne
      | simp [ast_parse_add_expr, ast_parse_add_op, h1, hop, h2]
  · intro fuel pc i m n1 j op n2 j2 h1 hop hne h2
    cases op <;> first
      | exact absurd rfl hne
      | simp [ast_parse_mult_expr, ast_parse_mult_op, h1, hop, h2]
  · intro fuel pc i m n1 j t j2 h1 hAs hty
    simp [ast_parse_cast_expression, h1, hAs, hty]

/-- Witness for the amended C2: at each of the nine binary levels the
concrete `a OP b` input yields a BinOpExpr at column 3 (the operator
token), and `a as T` yields a CastExpr at column 3 (the `as`). -/
theorem c2_amended_operator_token_positions_witness :
    ast_parse_bool_or_expr 100 (pcBinOp TokenId.boolOr) 0 true =
      Except.ok (some (AstNode.binOpExpr 1 3 BinOpType.boolOr
        (AstNode.symbol 1 1 ['a']) (AstNode.symbol 1 6 ['b'])), 3)
    ∧
    ast_parse_bool_and_expr 100 (pcBinOp TokenId.boolAnd) 0 true =
      Except.ok (some (AstNode.binOpExpr 1 3 BinOpType.boolAnd
        (AstNode.symbol 1 1 ['a']) (AstNode.symbol 1 6 ['b'])), 3)
    ∧
    ast_parse_comparison_expr 100 (pcBinOp TokenId.cmpEq) 0 true =
      Except.ok (some (AstNode.binOpExpr 1 3 BinOpType.cmpEq
        (AstNode.symbol 1 1 ['a']) (AstNode.symbol 1 6 ['b'])), 3)
    ∧
    ast_parse_bin_or_expr 100 (pcBinOp TokenId.binOr) 0 true =
      Except.ok (some (AstNode.binOpExpr 1 3 BinOpType.binOr
        (AstNode.symbol 1 1 ['a']) (AstNode.symbol 1 6 ['b'])), 3)
    ∧
    ast_parse_bin_xor_expr 100 (pcBinOp TokenId.binXor) 0 true =
      Except.ok (some (AstNode.binOpExpr 1 3 BinOpType.binXor
        (AstNode.symbol 1 1 ['a']) (AstNode.symbol 1 6 ['b'])), 3)
    ∧
    ast_parse_bin_and_expr 100 (pcBinOp TokenId.binAnd) 0 true =
      Except.ok (some (AstNode.binOpExpr 1 3 BinOpType.binAnd
        (AstNode.symbol 1 1 ['a']) (AstNode.symbol 1 6 ['b'])), 3)
    ∧
    ast_parse_bit_shift_expr 100 (pcBinOp TokenId.bitShiftLeft) 0 true =
      Except.ok (some (AstNode.binOpExpr 1 3 BinOpType.bitShiftLeft
        (AstNode.symbol 1 1 ['a']) (AstNode.symbol 1 6 ['b'])), 3)
    ∧
    ast_parse_add_expr 100 (pcBinOp TokenId.plus) 0 true =
      Except.ok (some (AstNode.binOpExpr 1 3 BinOpType.add
        (AstNode.symbol 1 1 ['a']) (AstNode.symbol 1 6 ['b'])), 3)
    ∧
    ast_parse_mult_expr 100 (pcBinOp TokenId.star) 0 true =
      Except.ok (some (AstNode.binOpExpr 1 3 BinOpType.mult
        (AstNode.symbol 1 1 ['a']) (AstNode.symbol 1 6 ['b'])), 3)
    ∧
    ast_parse_cast_expression 100 pcCastMul 0 true =
      Except.ok (some (AstNode.castExpr 1 3 (AstNode.symbol 1 1 ['a'])
        (AstNode.typePrimitive 1 6 ['T'])), 3) := by
  exact ⟨c2_amended_operator_token_positions.1 99 (pcBinOp TokenId.boolOr)
           0 true (AstNode.symbol 1 1 ['a']) 1 (AstNode.symbol 1 6 ['b']) 3 rfl rfl rfl,
         c2_amended_operator_token_positions.2.1 99 (pcBinOp TokenId.boolAnd)
           0 true (AstNode.symbol 1 1 ['a']) 1 (AstNode.symbol 1 6 ['b']) 3 rfl rfl rfl,
         c2_amended_operator_token_positions.2.2.1 99 (pcBinOp TokenId.cmpEq)
           0 true (AstNode.symbol 1 1 ['a']) 1 BinOpType.cmpEq (AstNode.symbol 1 6 ['b']) 3
           rfl rfl (by decide) rfl,
         c2_amended_operator_token_positions.2.2.2.1 99 (pcBinOp TokenId.binOr)
           0 true (AstNode.symbol 1 1 ['a']) 1 (AstNode.symbol 1 6 ['b']) 3 rfl rfl rfl,
         c2_amended_operator_token_positions.2.2.2.2.1 99 (pcBinOp TokenId.binXor)
           0 true (AstNode.symbol 1 1 ['a']) 1 (AstNode.symbol 1 6 ['b']) 3 rfl rfl rfl,
         c2_amended_operator_token_positions.2.2.2.2.2.1 99 (pcBinOp TokenId.binAnd)
           0 true (AstNode.symbol 1 1 ['a']) 1 (AstNode.symbol 1 6 ['b']) 3 rfl rfl rfl,
         c2_amended_operator_token_positions.2.2.2.2.2.2.1 99 (pcBinOp TokenId.bitShiftLeft)
           0 true (AstNode.symbol 1 1 ['a']) 1 BinOpType.bitShiftLeft (AstNode.symbol 1 6 ['b']) 3
           rfl rfl (by decide) rfl,
         c2_amended_operator_token_positions.2.2.2.2.2.2.2.1 99 (pcBinOp TokenId.plus)
           0 true (AstNode.symbol 1 1 ['a']) 1 BinOpType.add (AstNode.symbol 1 6 ['b']) 3
           rfl rfl (by decide) rfl,
         c2_amended_operator_token_positions.2.2.2.2.2.2.2.2.1 99 (pcBinOp TokenId.star)
           0 true (AstNode.symbol 1 1 ['a']) 1 BinOpType.mult (AstNode.symbol 1 6 ['b']) 3
           rfl rfl (by decide) rfl,
         c2_amended_operator_token_positions.2.2.2.2.2.2.2.2.2 99 pcCastMul
           0 true (AstNode.symbol 1 1 ['a']) 1
           (AstNode.typePrimitive 1 6 ['T']) 3 rfl rfl rfl⟩

/-- C5.  Every successfully parsed `FnProto` has a return type: there is
a position `i2` (the cursor after the parameter list) such that either
the token there is not `->` and the proto's return type is the
synthesized void `Type` node stamped with that token's position (the
place where the arrow would have appeared), with the cursor left at
`i2`; or the token is `->` and the return type is exactly the `Type`
parsed after it. -/
theorem c5_return_type_never_null
    (fuel : Nat) (pc : ParseContext) (dl : Option (List AstNode)) (i : Nat)
    (m : Bool) (node : AstNode) (j : Nat) (dl' : Option (List AstNode))
    (h : ast_parse_fn_proto (fuel + 1) pc dl i m = Except.ok (some node, j, dl')) :
    ∃ i2,
      ((tokenAt pc i2).id ≠ TokenId.arrow ∧ j = i2 ∧
        fnProtoReturnType node = some (ast_create_void_type_node (tokenAt pc i2)))
      ∨ ((tokenAt pc i2).id = TokenId.arrow ∧
        ∃ t, ast_parse_type fuel pc (i2 + 1) = Except.ok (t, j) ∧
          fnProtoReturnType node = some t) := by
  simp only [ast_parse_fn_proto, ast_expect_token] at h
  split at h
  · exact absurd h (by simp)
  · exact absurd h (by simp)
  · split at h
    · exact absurd h (by simp)
    · split at h
      · exact absurd h (by simp)
      · rename_i params i2 hplist
        split at h
        · rename_i harrow
          split at h
          · exact absurd h (by simp)
          · rename_i rt i3 htype
            simp only [Except.ok.injEq, Prod.mk.injEq, Option.some.injEq] at h
            obtain ⟨hnode, hj, hdl⟩ := h
            refine ⟨i2, Or.inr ⟨harrow, rt, ?_, ?_⟩⟩
            · rw [htype, hj]
            · rw [← hnode]; rfl
        · rename_i harrow
          simp only [Except.ok.injEq, Prod.mk.injEq, Option.some.injEq] at h
          obtain ⟨hnode, hj, hdl⟩ := h
          refine ⟨i2, Or.inl ⟨harrow, hj.symm, ?_⟩⟩
          rw [← hnode]; rfl

/-- Witness for C5: `fn f()` (no arrow; the next token is EOF at column
7) yields a proto whose return type is the synthesized void node at
column 7, and `fn f() -> T` yields return type `T`. -/
theorem c5_return_type_never_null_witness :
    (∃ i2,
      ((tokenAt pcFnVoid i2).id ≠ TokenId.arrow ∧ 4 = i2 ∧
        fnProtoReturnType (AstNode.fnProto 1 1 FnProtoVisibMod.visibPrivate
          ['f'] [] (AstNode.typePrimitive 1 7 "void".toList) (some [])) =
          some (ast_create_void_type_node (tokenAt pcFnVoid i2)))
      ∨ ((tokenAt pcFnVoid i2).id = TokenId.arrow ∧
        ∃ t, ast_parse_type 99 pcFnVoid (i2 + 1) = Except.ok (t, 4) ∧
          fnProtoReturnType (AstNode.fnProto 1 1 FnProtoVisibMod.visibPrivate
            ['f'] [] (AstNode.typePrimitive 1 7 "void".toList) (some [])) =
            some t))
    ∧ (∃ i2,
      ((tokenAt pcFnArrow i2).id ≠ TokenId.arrow ∧ 6 = i2 ∧
        fnProtoReturnType (AstNode.fnProto 1 1 FnProtoVisibMod.visibPrivate
          ['f'] [] (AstNode.typePrimitive 1 11 ['T']) (some [])) =
          some (ast_create_void_type_node (tokenAt pcFnArrow i2)))
      ∨ ((tokenAt pcFnArrow i2).id = TokenId.arrow ∧
        ∃ t, ast_parse_type 99 pcFnArrow (i2 + 1) = Except.ok (t, 6) ∧
          fnProtoReturnType (AstNode.fnProto 1 1 FnProtoVisibMod.visibPrivate
            ['f'] [] (AstNode.typePrimitive 1 11 ['T']) (some [])) =
            some t)) := by
  exact ⟨c5_return_type_never_null 99 pcFnVoid (some []) 0 false
           (AstNode.fnProto 1 1 FnProtoVisibMod.visibPrivate ['f'] []
             (AstNode.typePrimitive 1 7 "void".toList) (some [])) 4 none rfl,
         c5_return_type_never_null 99 pcFnArrow (some []) 0 false
           (AstNode.fnProto 1 1 FnProtoVisibMod.visibPrivate ['f'] []
             (AstNode.typePrimitive 1 11 ['T']) (some [])) 6 none rfl⟩

/-- The five-way `if` chain the decoder's escape branch appends with
equals appending the specification's escape table entry. -/
theorem append_escByte (acc : List Char) (c : Char) :
    (if c = '\\' then acc ++ ['\\']
     else if c = 'r' then acc ++ ['\r']
     else if c = 'n' then acc ++ ['\n']
     else if c = 't' then acc ++ ['\t']
     else if c = '"' then acc ++ ['"']
     else acc) = acc ++ specEscByte c := by
  simp only [specEscByte]
  split_ifs <;> simp

/-- The decoder's indexed loop computes the state machine `specDecodeEsc`
on the corresponding window of the source, appended to the accumulator. -/
theorem psl_go_spec (src : List Char) :
    ∀ (count i : Nat) (escape : Bool) (acc : List Char),
      i + count ≤ src.length →
      parse_string_literal_go src i count escape acc =
        (acc ++ (specDecodeEsc escape ((src.drop i).take count)).1,
         (specDecodeEsc escape ((src.drop i).take count)).2) := by
  intro count
  induction count with
  | zero =>
    intro i esc acc _
    simp [parse_string_literal_go, specDecodeEsc]
  | succ n ih =>
    intro i esc acc h
    have hi : i < src.length := by omega
    have hdrop : src.drop i = src[i] :: src.drop (i + 1) :=
      List.drop_eq_getElem_cons hi
    have hgetD : src.getD i ' ' = src[i] := List.getD_eq_getElem src ' ' hi
    rw [hdrop, List.take_succ_cons]
    cases esc with
    | true =>
      simp only [parse_string_literal_go, hgetD, if_pos rfl, if_true]
      rw [append_escByte, ih (i + 1) false (acc ++ specEscByte src[i]) (by omega)]
      simp [specDecodeEsc, List.append_assoc]
    | false =>
      by_cases hc : src[i] = '\\'
      · simp only [parse_string_literal_go, hgetD, hc, if_true, if_false,
          Bool.false_eq_true]
        rw [ih (i + 1) true acc (by omega)]
        simp [specDecodeEsc, hc]
      · simp only [parse_string_literal_go, hgetD, hc, Bool.false_eq_true,
          if_false]
        rw [ih (i + 1) false (acc ++ [src[i]]) (by omega)]
        simp [specDecodeEsc, hc, List.append_assoc]

/-- Unfolding equation for `specDecodeEsc` in the non-escape state. -/
theorem specDecodeEsc_false_cons (c : Char) (rest : List Char) :
    specDecodeEsc false (c :: rest) =
      if c = '\\' then specDecodeEsc true rest
      else (c :: (specDecodeEsc false rest).1, (specDecodeEsc false rest).2) := rfl

/-- Unfolding equation for `specDecodeEsc` in the escape state. -/
theorem specDecodeEsc_true_cons (c : Char) (rest : List Char) :
    specDecodeEsc true (c :: rest) =
      (specEscByte c ++ (specDecodeEsc false rest).1,
       (specDecodeEsc false rest).2) := rfl

/-- Unfolding equation for `specDecode`. -/
theorem specDecode_cons (c : Char) (rest : List Char) :
    specDecode (c :: rest) =
      if c = '\\' then
        (match rest with
         | [] => []
         | c2 :: rest2 => specEscByte c2 ++ specDecode rest2)
      else c :: specDecode rest := by
  rw [specDecode.eq_def]

/-- When the state machine ends outside the escape state, it computes
`specDecode`. -/
theorem specDecodeEsc_decode : ∀ l : List Char,
    ((specDecodeEsc false l).2 = false → (specDecodeEsc false l).1 = specDecode l)
    ∧ ((specDecodeEsc true l).2 = false →
      ∃ c rest, l = c :: rest ∧
        (specDecodeEsc true l).1 = specEscByte c ++ specDecode rest) := by
  intro l
  induction l with
  | nil =>
    constructor
    · intro _; rfl
    · intro h; simp [specDecodeEsc] at h
  | cons c rest ih =>
    constructor
    · intro h
      by_cases hc : c = '\\'
      · subst hc
        rw [specDecodeEsc_false_cons, if_pos rfl] at h ⊢
        obtain ⟨c2, rest2, hrest, hval⟩ := ih.2 h
        subst hrest
        rw [hval, specDecode_cons, if_pos rfl]
      · rw [specDecodeEsc_false_cons, if_neg hc] at h ⊢
        rw [specDecode_cons, if_neg hc]
        simp only [List.cons.injEq, true_and]
        exact ih.1 h
    · intro h
      rw [specDecodeEsc_true_cons] at h ⊢
      exact ⟨c, rest, rfl, by rw [ih.1 h]⟩

/-- C6.  Whenever `parse_string_literal` returns a decoded buffer for a
string token spanning `[startPos, endPos)` (quotes at both ends, token
within the source), the output equals the specification decoder
`specDecode` applied to the bytes strictly between the quotes: the five
escape pairs map through the table, other bytes are copied unchanged,
and a backslash followed by any other byte emits nothing. -/
theorem c6_string_decoder_matches_spec
    (src : List Char) (startPos endPos : Nat) (out : List Char)
    (hq : startPos + 2 ≤ endPos) (hlen : endPos ≤ src.length)
    (h : parse_string_literal src startPos endPos = some out) :
    out = specDecode (innerBytes src startPos endPos) := by
  simp only [parse_string_literal] at h
  rw [psl_go_spec src ((endPos - 1) - (startPos + 1)) (startPos + 1) false []
    (by omega)] at h
  simp only [List.nil_append] at h
  by_cases h2 : (specDecodeEsc false
      ((src.drop (startPos + 1)).take ((endPos - 1) - (startPos + 1)))).2
  · rw [if_pos h2] at h
    exact absurd h (by simp)
  · rw [if_neg h2] at h
    simp only [Option.some.injEq] at h
    rw [← h]
    exact (specDecodeEsc_decode _).1 (by simpa using h2)

/-- Witness for C6: decoding the literal source `"\\\n\r\t\""` yields
exactly the five bytes backslash, LF, CR, TAB, double-quote. -/
theorem c6_string_decoder_matches_spec_witness :
    parse_string_literal srcFiveEscapes 0 12 =
      some (specDecode (innerBytes srcFiveEscapes 0 12))
    ∧ specDecode (innerBytes srcFiveEscapes 0 12) =
      ['\\', '\n', '\r', '\t', '"'] := by
  constructor
  · rw [← c6_string_decoder_matches_spec srcFiveEscapes 0 12
      ['\\', '\n', '\r', '\t', '"'] (by decide) (by decide) rfl]
    rfl
  · exact (c6_string_decoder_matches_spec srcFiveEscapes 0 12
      ['\\', '\n', '\r', '\t', '"'] (by decide) (by decide) rfl).symm

/-- A successfully parsed directive node is stamped with the position
of its `#` token. -/
theorem ast_parse_directive_shape (pc : ParseContext) (i : Nat) (d : AstNode)
    (j : Nat) (h : ast_parse_directive pc i = Except.ok (d, j)) :
    ∃ nm pm, d = AstNode.directive (tokenAt pc i).startLine
      (tokenAt pc i).startColumn nm pm := by
  simp only [ast_parse_directive, ast_expect_token] at h
  repeat' split at h
  all_goals simp_all
  exact ⟨ast_buf_from_token pc (tokenAt pc (i + 1)), _, h.1.symm⟩

/-- The directive collector only appends: its result extends the
accumulator it was given. -/
theorem ast_parse_directives_extends (pc : ParseContext) :
    ∀ (fuel i : Nat) (acc ds : List AstNode) (j : Nat),
      ast_parse_directives fuel pc i acc = Except.ok (ds, j) →
      ∃ tail, ds = acc ++ tail := by
  intro fuel
  induction fuel with
  | zero =>
    intro i acc ds j h
    exact absurd h (by simp [ast_parse_directives])
  | succ n ih =>
    intro i acc ds j h
    simp only [ast_parse_directives] at h
    split at h
    · split at h
      · exact absurd h (by simp)
      · rename_i d j1 heqd
        obtain ⟨tail, htail⟩ := ih _ _ _ _ h
        exact ⟨[d] ++ tail, by simpa using htail⟩
    · simp only [Except.ok.injEq, Prod.mk.injEq] at h
      exact ⟨[], by simp [h.1.symm]⟩

/-- When the collector returns a non-empty list (from an empty
accumulator), the current token is the first directive's `#` and the
list's head is a Directive node at that token's position. -/
theorem first_directive_head (fuel : Nat) (pc : ParseContext) (i : Nat)
    (ds : List AstNode) (j : Nat)
    (h : ast_parse_directives fuel pc i [] = Except.ok (ds, j))
    (hne : ds ≠ []) :
    (tokenAt pc i).id = TokenId.numberSign ∧
    ∃ nm pm rest, ds = AstNode.directive (tokenAt pc i).startLine
      (tokenAt pc i).startColumn nm pm :: rest := by
  cases fuel with
  | zero => exact absurd h (by simp [ast_parse_directives])
  | succ n =>
    simp only [ast_parse_directives] at h
    split at h
    · rename_i hsign
      split at h
      · exact absurd h (by simp)
      · rename_i d j1 heqd
        obtain ⟨nm, pm, hd⟩ := ast_parse_directive_shape pc i d j1 heqd
        obtain ⟨tail, htail⟩ := ast_parse_directives_extends pc _ _ _ _ _ h
        subst hd
        refine ⟨hsign, nm, pm, tail, ?_⟩
        simpa using htail
    · simp only [Except.ok.injEq, Prod.mk.injEq] at h
      exact absurd h.1.symm hne

/-- C8.  At a declaration position: if directives were collected but
none of RootExportDecl/FnDef/ExternBlock/Use matches, the top-level loop
aborts with `invalid directive` positioned at the first directive's `#`
token (whose position the collected list's head node also carries); if
no directives were collected the loop instead terminates normally.
Inside an extern block, directives followed by the closing `}` likewise
abort with `invalid directive` at the first directive's `#`. -/
theorem c8_orphan_directive_is_fatal :
    (∀ (fuel : Nat) (pc : ParseContext) (i : Nat) (acc ds : List AstNode)
        (i1 i2 i3 i4 i5 : Nat) (s2 s3 s4 s5 : Option (List AstNode)),
      ast_parse_directives fuel pc i [] = Except.ok (ds, i1) →
      ast_parse_root_export_decl pc (some ds) i1 = Except.ok (none, i2, s2) →
      ast_parse_fn_def fuel pc s2 i2 false = Except.ok (none, i3, s3) →
      ast_parse_extern_block fuel pc s3 i3 false = Except.ok (none, i4, s4) →
      ast_parse_use pc s4 i4 = Except.ok (none, i5, s5) →
      (ds ≠ [] →
        ast_parse_top_level_decls (fuel + 1) pc none i acc =
          Except.error ⟨(tokenAt pc i).startLine, (tokenAt pc i).startColumn,
            "invalid directive"⟩
        ∧ (tokenAt pc i).id = TokenId.numberSign
        ∧ ∃ nm pm rest, ds = AstNode.directive (tokenAt pc i).startLine
            (tokenAt pc i).startColumn nm pm :: rest)
      ∧ (ds = [] →
        ast_parse_top_level_decls (fuel + 1) pc none i acc =
          Except.ok (acc, i5, none)))
    ∧ (∀ (fuel : Nat) (pc : ParseContext) (i : Nat) (acc ds : List AstNode)
        (j : Nat),
      ast_parse_directives fuel pc i [] = Except.ok (ds, j) →
      (tokenAt pc j).id = TokenId.rBrace →
      ds ≠ [] →
      ast_parse_extern_block_loop (fuel + 1) pc none i acc =
        Except.error ⟨(tokenAt pc i).startLine, (tokenAt pc i).startColumn,
          "invalid directive"⟩) := by
  constructor
  · intro fuel pc i acc ds i1 i2 i3 i4 i5 s2 s3 s4 s5 h0 h1 h2 h3 h4
    constructor
    · intro hne
      refine ⟨?_, (first_directive_head fuel pc i ds i1 h0 hne).1,
        (first_directive_head fuel pc i ds i1 h0 hne).2⟩
      simp only [ast_parse_top_level_decls, h0, h1, h2, h3, h4]
      rw [if_pos (List.length_pos.mpr hne)]
    · intro hemp
      subst hemp
      simp [ast_parse_top_level_decls, h0, h1, h2, h3, h4]
  · intro fuel pc i acc ds j h0 hbrace hne
    simp only [ast_parse_extern_block_loop, h0, hbrace, if_pos]
    rw [if_pos (List.length_pos.mpr hne)]

/-- Witness for C8: `#foo("x") 1` aborts with `invalid directive` at
column 1; the empty program's top-level loop terminates normally; and
`extern { #a("b") }` aborts with `invalid directive` at column 10. -/
theorem c8_orphan_directive_is_fatal_witness :
    ast_parse_top_level_decls 100 pcOrphanTop none 0 [] =
      Except.error ⟨1, 1, "invalid directive"⟩
    ∧ ast_parse_top_level_decls 100 pcOnlyEof none 0 [] =
      Except.ok ([], 0, none)
    ∧ ast_parse_extern_block_loop 100 pcExternOrphan none 2 [] =
      Except.error ⟨1, 10, "invalid directive"⟩ := by
  refine ⟨?_, ?_, ?_⟩
  · exact ((c8_orphan_directive_is_fatal.1 99 pcOrphanTop 0 []
      [AstNode.directive 1 1 ['f', 'o', 'o'] ['x']] 5 5 5 5 5
      (some [AstNode.directive 1 1 ['f', 'o', 'o'] ['x']])
      (some [AstNode.directive 1 1 ['f', 'o', 'o'] ['x']])
      (some [AstNode.directive 1 1 ['f', 'o', 'o'] ['x']])
      (some [AstNode.directive 1 1 ['f', 'o', 'o'] ['x']])
      rfl rfl rfl rfl rfl).1 (by simp)).1
  · exact (c8_orphan_directive_is_fatal.1 99 pcOnlyEof 0 [] [] 0 0 0 0 0
      (some []) (some []) (some []) (some []) rfl rfl rfl rfl rfl).2 rfl
  · exact c8_orphan_directive_is_fatal.2 99 pcExternOrphan 2 []
      [AstNode.directive 1 10 ['a'] ['b']] 7 rfl rfl (by simp)

theorem type_noStray (pc : ParseContext) :
    ∀ (fuel i : Nat) (t : AstNode) (j : Nat),
      ast_parse_type fuel pc i = Except.ok (t, j) →
      noStrayDirective t = true := by
  intro fuel
  induction fuel with
  | zero =>
    intro i t j h
    exact absurd h (by simp [ast_parse_type])
  | succ n ih =>
    intro i t j h
    simp only [ast_parse_type] at h
    repeat' split at h
    all_goals simp at h
    all_goals obtain ⟨ht, hj⟩ := h
    all_goals subst ht
    all_goals simp only [noStrayDirective]
    all_goals exact ih _ _ _ (by assumption)

theorem param_decl_noStray (pc : ParseContext) (fuel i : Nat) (p : AstNode)
    (j : Nat) (h : ast_parse_param_decl fuel pc i = Except.ok (p, j)) :
    noStrayDirective p = true := by
  simp only [ast_parse_param_decl, ast_expect_token] at h
  repeat' split at h
  all_goals simp at h
  obtain ⟨hp, hj⟩ := h
  subst hp
  simp only [noStrayDirective]
  exact type_noStray pc _ _ _ _ (by assumption)

theorem param_decl_list_loop_noStray (pc : ParseContext) :
    ∀ (fuel i : Nat) (acc res : List AstNode) (j : Nat),
      List.all acc noStrayDirective = true →
      ast_parse_param_decl_list_loop fuel pc i acc = Except.ok (res, j) →
      List.all res noStrayDirective = true := by
  intro fuel
  induction fuel with
  | zero =>
    intro i acc res j _ h
    exact absurd h (by simp [ast_parse_param_decl_list_loop])
  | succ n ih =>
    intro i acc res j hacc h
    simp only [ast_parse_param_decl_list_loop, ast_expect_token] at h
    split at h
    · exact absurd h (by simp)
    · rename_i scr p j1 hp
      split at h
      · simp at h
        obtain ⟨hres, hj⟩ := h
        subst hres
        have := param_decl_noStray pc n _ p j1 hp
        simp_all [List.all_append]
      · split at h
        · exact absurd h (by simp)
        · have := param_decl_noStray pc n _ p j1 hp
          exact ih _ (acc ++ [p]) res _ (by simp_all [List.all_append]) h

theorem param_decl_list_noStray (pc : ParseContext) (fuel i : Nat)
    (res : List AstNode) (j : Nat)
    (h : ast_parse_param_decl_list fuel pc i = Except.ok (res, j)) :
    List.all res noStrayDirective = true := by
  simp only [ast_parse_param_decl_list, ast_expect_token] at h
  split at h
  · exact absurd h (by simp)
  · split at h
    · simp at h
      obtain ⟨hres, hj⟩ := h
      subst hres
      rfl
    · exact param_decl_list_loop_noStray pc _ _ [] res _ rfl h

theorem directives_all_directive (pc : ParseContext) :
    ∀ (fuel i : Nat) (acc ds : List AstNode) (j : Nat),
      List.all acc isDirectiveNode = true →
      ast_parse_directives fuel pc i acc = Except.ok (ds, j) →
      List.all ds isDirectiveNode = true := by
  intro fuel
  induction fuel with
  | zero =>
    intro i acc ds j _ h
    exact absurd h (by simp [ast_parse_directives])
  | succ n ih =>
    intro i acc ds j hacc h
    simp only [ast_parse_directives] at h
    split at h
    · split at h
      · exact absurd h (by simp)
      · rename_i d j1 hd
        obtain ⟨nm, pm, hshape⟩ := ast_parse_directive_shape pc _ d j1 hd
        refine ih _ (acc ++ [d]) ds _ ?_ h
        simp_all [List.all_append, isDirectiveNode]
    · simp at h
      obtain ⟨hds, hj⟩ := h
      subst hds
      exact hacc


theorem noStrayDirectiveList_eq_all (l : List AstNode) :
    noStrayDirectiveList l = l.all noStrayDirective := by
  induction l with
  | nil => simp [noStrayDirectiveList]
  | cons n ns ih => simp [noStrayDirectiveList, ih]

theorem optNoStray_some {n : AstNode} {j : Nat}
    (h : noStrayDirective n = true) : optResultNoStray (some n, j) := h

theorem optNoStray_get {n : AstNode} {j : Nat}
    (h : optResultNoStray (some n, j)) : noStrayDirective n = true := h

theorem optNoStray_reindex {o : Option AstNode} {j j2 : Nat}
    (h : optResultNoStray (o, j)) : optResultNoStray (o, j2) := h

theorem listNoStray_get {l : List AstNode} {j : Nat}
    (h : listResultNoStray (l, j)) : l.all noStrayDirective = true := h

set_option maxHeartbeats 1000000 in
theorem expr_noStray (pc : ParseContext) : ∀ fuel : Nat,
    (∀ i m res, ast_parse_grouped_expr fuel pc i m = Except.ok res →
      optResultNoStray res)
    ∧ (∀ i m res, ast_parse_primary_expr fuel pc i m = Except.ok res →
      optResultNoStray res)
    ∧ (∀ i acc res, acc.all noStrayDirective = true →
      ast_parse_fn_call_param_list_loop fuel pc i acc = Except.ok res →
      listResultNoStray res)
    ∧ (∀ i res, ast_parse_fn_call_param_list fuel pc i = Except.ok res →
      listResultNoStray res)
    ∧ (∀ i m res, ast_parse_fn_call_expr fuel pc i m = Except.ok res →
      optResultNoStray res)
    ∧ (∀ i m res, ast_parse_prefix_op_expr fuel pc i m = Except.ok res →
      optResultNoStray res)
    ∧ (∀ i m res, ast_parse_cast_expression fuel pc i m = Except.ok res →
      optResultNoStray res)
    ∧ (∀ i m res, ast_parse_mult_expr fuel pc i m = Except.ok res →
      optResultNoStray res)
    ∧ (∀ i m res, ast_parse_add_expr fuel pc i m = Except.ok res →
      optResultNoStray res)
    ∧ (∀ i m res, ast_parse_bit_shift_expr fuel pc i m = Except.ok res →
      optResultNoStray res)
    ∧ (∀ i m res, ast_parse_bin_and_expr fuel pc i m = Except.ok res →
      optResultNoStray res)
    ∧ (∀ i m res, ast_parse_bin_xor_expr fuel pc i m = Except.ok res →
      optResultNoStray res)
    ∧ (∀ i m res, ast_parse_bin_or_expr fuel pc i m = Except.ok res →
      optResultNoStray res)
    ∧ (∀ i m res, ast_parse_comparison_expr fuel pc i m = Except.ok res →
      optResultNoStray res)
    ∧ (∀ i m res, ast_parse_bool_and_expr fuel pc i m = Except.ok res →
      optResultNoStray res)
    ∧ (∀ i m res, ast_parse_return_expr fuel pc i m = Except.ok res →
      optResultNoStray res)
    ∧ (∀ i m res, ast_parse_bool_or_expr fuel pc i m = Except.ok res →
      optResultNoStray res)
    ∧ (∀ i m res, ast_parse_expression fuel pc i m = Except.ok res →
      optResultNoStray res)
    ∧ (∀ i res, ast_parse_expression_statement fuel pc i = Except.ok res →
      nodeResultNoStray res)
    ∧ (∀ i res, ast_parse_statement fuel pc i = Except.ok res →
      nodeResultNoStray res)
    ∧ (∀ i acc res, acc.all noStrayDirective = true →
      ast_parse_block_stmts fuel pc i acc = Except.ok res →
      listResultNoStray res)
    ∧ (∀ i m res, ast_parse_block fuel pc i m = Except.ok res →
      optResultNoStray res) := by
  intro fuel
  induction fuel with
  | zero =>
    refine ⟨?_, ?_, ?_, ?_, ?_, ?_, ?_, ?_, ?_, ?_, ?_, ?_, ?_, ?_, ?_, ?_,
      ?_, ?_, ?_, ?_, ?_, ?_⟩ <;> intros <;>
      simp_all [ast_parse_grouped_expr, ast_parse_primary_expr,
        ast_parse_fn_call_param_list_loop, ast_parse_fn_call_param_list,
        ast_parse_fn_call_expr, ast_parse_prefix_op_expr,
        ast_parse_cast_expression, ast_parse_mult_expr, ast_parse_add_expr,
        ast_parse_bit_shift_expr, ast_parse_bin_and_expr,
        ast_parse_bin_xor_expr, ast_parse_bin_or_expr,
        ast_parse_comparison_expr, ast_parse_bool_and_expr,
        ast_parse_return_expr, ast_parse_bool_or_expr, ast_parse_expression,
        ast_parse_expression_statement, ast_parse_statement,
        ast_parse_block_stmts, ast_parse_block]
  | succ f ih =>
    obtain ⟨ihGrouped, ihPrimary, ihFlLoop, ihFl, ihFnCall, ihPrefix, ihCast,
      ihMult, ihAdd, ihShift, ihBinAnd, ihBinXor, ihBinOr, ihCmp, ihBoolAnd,
      ihReturn, ihBoolOr, ihExpr, ihExprStmt, ihStmt, ihBlockStmts,
      ihBlock⟩ := ih
    refine ⟨?_, ?_, ?_, ?_, ?_, ?_, ?_, ?_, ?_, ?_, ?_, ?_, ?_, ?_, ?_, ?_,
      ?_, ?_, ?_, ?_, ?_, ?_⟩
    · -- grouped
      intro i m res h
      simp only [ast_parse_grouped_expr, ast_expect_token] at h
      repeat' split at h
      all_goals first
        | exact Except.noConfusion h
        | (injection h with h2; subst h2)
      all_goals first
        | trivial
        | exact optNoStray_reindex (ihExpr _ _ _ (by assumption))
    · -- primary
      intro i m res h
      simp only [ast_parse_primary_expr] at h
      repeat' split at h
      all_goals first
        | exact Except.noConfusion h
        | (injection h with h2; subst h2)
      all_goals first
        | trivial
        | (simp [optResultNoStray, noStrayDirective]; done)
        | exact optNoStray_reindex (ihBlock _ _ _ (by assumption))
        | exact optNoStray_reindex (ihGrouped _ _ _ (by assumption))
    · -- fn_call_param_list_loop
      intro i acc res hacc h
      simp only [ast_parse_fn_call_param_list_loop, ast_expect_token] at h
      repeat' split at h
      all_goals first
        | exact Except.noConfusion h
        | skip
      all_goals first
        | (injection h with h2; subst h2;
           have he := optNoStray_get (ihExpr _ _ _ (by assumption))
           simp_all [listResultNoStray, List.all_append])
        | (refine ihFlLoop _ _ _ ?_ h
           have he := optNoStray_get (ihExpr _ _ _ (by assumption))
           simp_all [List.all_append])
    · -- fn_call_param_list
      intro i res h
      simp only [ast_parse_fn_call_param_list, ast_expect_token] at h
      repeat' split at h
      all_goals first
        | exact Except.noConfusion h
        | skip
      all_goals first
        | (injection h with h2; subst h2; simp [listResultNoStray])
        | exact ihFlLoop _ [] _ rfl h
    · -- fn_call_expr
      intro i m res h
      simp only [ast_parse_fn_call_expr] at h
      repeat' split at h
      all_goals first
        | exact Except.noConfusion h
        | (injection h with h2; subst h2)
      all_goals first
        | trivial
        | exact optNoStray_reindex (ihPrimary _ _ _ (by assumption))
        | exact optNoStray_some (by
            simp only [noStrayDirective, Bool.and_eq_true,
              noStrayDirectiveList_eq_all]
            exact ⟨optNoStray_get (ihPrimary _ _ _ (by assumption)),
                   listNoStray_get (ihFl _ _ (by assumption))⟩)
    · -- prefix_op_expr
      intro i m res h
      simp only [ast_parse_prefix_op_expr] at h
      repeat' split at h
      all_goals first
        | exact Except.noConfusion h
        | exact ihFnCall _ _ _ h
        | (injection h with h2; subst h2)
      all_goals first
        | trivial
        | exact optNoStray_some (by
            simp only [noStrayDirective]
            exact optNoStray_get (ihFnCall _ _ _ (by assumption)))
    · -- cast
      intro i m res h
      simp only [ast_parse_cast_expression] at h
      repeat' split at h
      all_goals first
        | exact Except.noConfusion h
        | (injection h with h2; subst h2)
      all_goals first
        | trivial
        | exact optNoStray_reindex (ihPrefix _ _ _ (by assumption))
        | exact optNoStray_some (by
            simp only [noStrayDirective, Bool.and_eq_true]
            exact ⟨optNoStray_get (ihPrefix _ _ _ (by assumption)),
                   type_noStray pc f _ _ _ (by assumption)⟩)
    · -- mult
      intro i m res h
      simp only [ast_parse_mult_expr] at h
      repeat' split at h
      all_goals first
        | exact Except.noConfusion h
        | (injection h with h2; subst h2)
      all_goals first
        | trivial
        | exact optNoStray_reindex (ihCast _ _ _ (by assumption))
        | exact optNoStray_some (by
            simp only [noStrayDirective, Bool.and_eq_true]
            exact ⟨optNoStray_get (ihCast _ _ _ (by assumption)),
                   optNoStray_get (ihCast _ _ _ (by assumption))⟩)
    · -- ast_parse_add_expr
      intro i m res h
      simp only [ast_parse_add_expr] at h
      repeat' split at h
      all_goals first
        | exact Except.noConfusion h
        | (injection h with h2; subst h2)
      all_goals first
        | trivial
        | exact optNoStray_reindex (ihMult _ _ _ (by assumption))
        | exact optNoStray_some (by
            simp only [noStrayDirective, Bool.and_eq_true]
            exact ⟨optNoStray_get (ihMult _ _ _ (by assumption)),
                   optNoStray_get (ihMult _ _ _ (by assumption))⟩)
    · -- ast_parse_bit_shift_expr
      intro i m res h
      simp only [ast_parse_bit_shift_expr] at h
      repeat' split at h
      all_goals first
        | exact Except.noConfusion h
        | (injection h with h2; subst h2)
      all_goals first
        | trivial
        | exact optNoStray_reindex (ihAdd _ _ _ (by assumption))
        | exact optNoStray_some (by
            simp only [noStrayDirective, Bool.and_eq_true]
            exact ⟨optNoStray_get (ihAdd _ _ _ (by assumption)),
                   optNoStray_get (ihAdd _ _ _ (by assumption))⟩)
    · -- ast_parse_bin_and_expr
      intro i m res h
      simp only [ast_parse_bin_and_expr] at h
      repeat' split at h
      all_goals first
        | exact Except.noConfusion h
        | (injection h with h2; subst h2)
      all_goals first
        | trivial
        | exact optNoStray_reindex (ihShift _ _ _ (by assumption))
        | exact optNoStray_some (by
            simp only [noStrayDirective, Bool.and_eq_true]
            exact ⟨optNoStray_get (ihShift _ _ _ (by assumption)),
                   optNoStray_get (ihShift _ _ _ (by assumption))⟩)
    · -- ast_parse_bin_xor_expr
      intro i m res h
      simp only [ast_parse_bin_xor_expr] at h
      repeat' split at h
      all_goals first
        | exact Except.noConfusion h
        | (injection h with h2; subst h2)
      all_goals first
        | trivial
        | exact optNoStray_reindex (ihBinAnd _ _ _ (by assumption))
        | exact optNoStray_some (by
            simp only [noStrayDirective, Bool.and_eq_true]
            exact ⟨optNoStray_get (ihBinAnd _ _ _ (by assumption)),
                   optNoStray_get (ihBinAnd _ _ _ (by assumption))⟩)
    · -- ast_parse_bin_or_expr
      intro i m res h
      simp only [ast_parse_bin_or_expr] at h
      repeat' split at h
      all_goals first
        | exact Except.noConfusion h
        | (injection h with h2; subst h2)
      all_goals first
        | trivial
        | exact optNoStray_reindex (ihBinXor _ _ _ (by assumption))
        | exact optNoStray_some (by
            simp only [noStrayDirective, Bool.and_eq_true]
            exact ⟨optNoStray_get (ihBinXor _ _ _ (by assumption)),
                   optNoStray_get (ihBinXor _ _ _ (by assumption))⟩)
    · -- ast_parse_comparison_expr
      intro i m res h
      simp only [ast_parse_comparison_expr] at h
      repeat' split at h
      all_goals first
        | exact Except.noConfusion h
        | (injection h with h2; subst h2)
      all_goals first
        | trivial
        | exact optNoStray_reindex (ihBinOr _ _ _ (by assumption))
        | exact optNoStray_some (by
            simp only [noStrayDirective, Bool.and_eq_true]
            exact ⟨optNoStray_get (ihBinOr _ _ _ (by assumption)),
                   optNoStray_get (ihBinOr _ _ _ (by assumption))⟩)
    · -- ast_parse_bool_and_expr
      intro i m res h
      simp only [ast_parse_bool_and_expr] at h
      repeat' split at h
      all_goals first
        | exact Except.noConfusion h
        | (injection h with h2; subst h2)
      all_goals first
        | trivial
        | exact optNoStray_reindex (ihCmp _ _ _ (by assumption))
        | exact optNoStray_some (by
            simp only [noStrayDirective, Bool.and_eq_true]
            exact ⟨optNoStray_get (ihCmp _ _ _ (by assumption)),
                   optNoStray_get (ihCmp _ _ _ (by assumption))⟩)
    · -- return_expr
      intro i m res h
      simp only [ast_parse_return_expr] at h
      repeat' split at h
      all_goals first
        | exact Except.noConfusion h
        | (injection h with h2; subst h2)
      all_goals try trivial
      rename_i expr j0 hexpr
      rcases expr with _ | e
      · simp [optResultNoStray, noStrayDirective]
      · exact optNoStray_some (by
          simp only [noStrayDirective]
          exact optNoStray_get (ihExpr _ _ _ hexpr))
    · -- ast_parse_bool_or_expr
      intro i m res h
      simp only [ast_parse_bool_or_expr] at h
      repeat' split at h
      all_goals first
        | exact Except.noConfusion h
        | (injection h with h2; subst h2)
      all_goals first
        | trivial
        | exact optNoStray_reindex (ihBoolAnd _ _ _ (by assumption))
        | exact optNoStray_some (by
            simp only [noStrayDirective, Bool.and_eq_true]
            exact ⟨optNoStray_get (ihBoolAnd _ _ _ (by assumption)),
                   optNoStray_get (ihBoolAnd _ _ _ (by assumption))⟩)
    · -- expression
      intro i m res h
      simp only [ast_parse_expression] at h
      repeat' split at h
      all_goals first
        | exact Except.noConfusion h
        | (injection h with h2; subst h2)
      all_goals first
        | trivial
        | exact optNoStray_reindex (ihReturn _ _ _ (by assumption))
        | exact optNoStray_reindex (ihBoolOr _ _ _ (by assumption))
    · -- expression_statement
      intro i res h
      simp only [ast_parse_expression_statement, ast_expect_token] at h
      repeat' split at h
      all_goals first
        | exact Except.noConfusion h
        | (injection h with h2; subst h2)
      exact optNoStray_get (ihExpr _ _ _ (by assumption))
    · -- statement
      intro i res h
      simp only [ast_parse_statement] at h
      exact ihExprStmt _ _ h
    · -- block_stmts
      intro i acc res hacc h
      simp only [ast_parse_block_stmts] at h
      repeat' split at h
      all_goals first
        | exact Except.noConfusion h
        | skip
      all_goals first
        | (injection h with h2; subst h2; exact hacc)
        | (refine ihBlockStmts _ _ _ ?_ h
           have hs : noStrayDirective _ = true := ihStmt _ _ (by assumption)
           simp_all [List.all_append])
    · -- block
      intro i m res h
      simp only [ast_parse_block] at h
      repeat' split at h
      all_goals first
        | exact Except.noConfusion h
        | (injection h with h2; subst h2)
      all_goals first
        | trivial
        | exact optNoStray_some (by
            simp only [noStrayDirective, noStrayDirectiveList_eq_all]
            exact ihBlockStmts _ [] _ rfl (by assumption))

theorem fn_proto_props (fuel : Nat) (pc : ParseContext)
    (s : Option (List AstNode)) (i : Nat) (m : Bool)
    (o : Option AstNode) (j : Nat) (s' : Option (List AstNode))
    (h : ast_parse_fn_proto fuel pc s i m = Except.ok (o, j, s')) :
    (o = none → s' = s) ∧
    (∀ n, o = some n → s' = none ∧ astNodeDirectives n = some s ∧
      (dirListOk s = true → noStrayDirective n = true)) := by
  cases fuel with
  | zero => exact absurd h (by simp [ast_parse_fn_proto])
  | succ f =>
    simp only [ast_parse_fn_proto, ast_expect_token] at h
    split at h
    · exact absurd h (by simp)
    · injection h with h2
      injection h2 with ho h3
      injection h3 with hj hs
      subst ho; subst hs
      constructor
      · intro _; rfl
      · intro n hn; exact absurd hn.symm (by simp)
    · split at h
      · exact absurd h (by simp)
      · split at h
        · exact absurd h (by simp)
        · rename_i params i2 hplist
          split at h
          · split at h
            · exact absurd h (by simp)
            · rename_i rt i3 htype
              injection h with h2
              injection h2 with ho h3
              injection h3 with hj hs
              subst ho; subst hs
              constructor
              · intro hno; exact absurd hno (by simp)
              · intro n hn
                injection hn with hn
                subst hn
                refine ⟨rfl, rfl, fun hok => ?_⟩
                simp only [noStrayDirective, noStrayDirectiveList_eq_all,
                  Bool.and_eq_true]
                exact ⟨⟨hok, param_decl_list_noStray pc _ _ _ _ hplist⟩,
                  type_noStray pc _ _ _ _ htype⟩
          · injection h with h2
            injection h2 with ho h3
            injection h3 with hj hs
            subst ho; subst hs
            constructor
            · intro hno; exact absurd hno (by simp)
            · intro n hn
              injection hn with hn
              subst hn
              refine ⟨rfl, rfl, fun hok => ?_⟩
              simp only [noStrayDirective, noStrayDirectiveList_eq_all,
                Bool.and_eq_true, ast_create_void_type_node]
              exact ⟨⟨hok, param_decl_list_noStray pc _ _ _ _ hplist⟩, trivial⟩

theorem block_noStray (pc : ParseContext) (fuel i : Nat) (m : Bool)
    (res : Option AstNode × Nat) (h : ast_parse_block fuel pc i m = Except.ok res) :
    optResultNoStray res :=
  (expr_noStray pc fuel).2.2.2.2.2.2.2.2.2.2.2.2.2.2.2.2.2.2.2.2.2 i m res h

theorem fn_def_props (fuel : Nat) (pc : ParseContext)
    (s : Option (List AstNode)) (i : Nat) (m : Bool)
    (o : Option AstNode) (j : Nat) (s' : Option (List AstNode))
    (h : ast_parse_fn_def fuel pc s i m = Except.ok (o, j, s')) :
    (o = none → s' = s) ∧
    (∀ n, o = some n → s' = none ∧
      (dirListOk s = true → noStrayDirective n = true)) := by
  cases fuel with
  | zero => exact absurd h (by simp [ast_parse_fn_def])
  | succ f =>
    simp only [ast_parse_fn_def] at h
    split at h
    · exact absurd h (by simp)
    · rename_i jp dl hproto
      simp only [Except.ok.injEq, Prod.mk.injEq] at h
      obtain ⟨ho, hj, hs⟩ := h
      subst ho; subst hs
      constructor
      · intro _
        exact (fn_proto_props f pc s i m none jp dl hproto).1 rfl
      · intro n hn
        exact absurd hn.symm (by simp)
    · rename_i p jp dl hproto
      split at h
      · exact absurd h (by simp)
      · exact absurd h (by simp)
      · rename_i body jb hblock
        simp only [Except.ok.injEq, Prod.mk.injEq] at h
        obtain ⟨ho, hj, hs⟩ := h
        subst ho; subst hs
        obtain ⟨hdl, hdirs, hns⟩ :=
          (fn_proto_props f pc s i m (some p) jp dl hproto).2 p rfl
        constructor
        · intro hno; exact absurd hno (by simp)
        · intro n hn
          injection hn with hn
          subst hn
          refine ⟨hdl, fun hok => ?_⟩
          simp only [noStrayDirective, Bool.and_eq_true]
          exact ⟨hns hok,
            optNoStray_get (block_noStray pc f jp true (some body, jb) hblock)⟩

theorem fn_decl_props (fuel : Nat) (pc : ParseContext)
    (s : Option (List AstNode)) (i : Nat)
    (n : AstNode) (j : Nat) (s' : Option (List AstNode))
    (h : ast_parse_fn_decl fuel pc s i = Except.ok (n, j, s')) :
    s' = none ∧ (dirListOk s = true → noStrayDirective n = true) := by
  cases fuel with
  | zero => exact absurd h (by simp [ast_parse_fn_decl])
  | succ f =>
    simp only [ast_parse_fn_decl, ast_expect_token] at h
    split at h
    · exact absurd h (by simp)
    · exact absurd h (by simp)
    · rename_i p jp dl hproto
      split at h
      · exact absurd h (by simp)
      · simp only [Except.ok.injEq, Prod.mk.injEq] at h
        obtain ⟨hn, hj, hs⟩ := h
        subst hn; subst hs
        obtain ⟨hdl, hdirs, hns⟩ :=
          (fn_proto_props f pc s i true (some p) jp dl hproto).2 p rfl
        refine ⟨hdl, fun hok => ?_⟩
        simp only [noStrayDirective]
        exact hns hok

theorem root_export_props (pc : ParseContext)
    (s : Option (List AstNode)) (i : Nat)
    (o : Option AstNode) (j : Nat) (s' : Option (List AstNode))
    (h : ast_parse_root_export_decl pc s i = Except.ok (o, j, s')) :
    (o = none → s' = s) ∧
    (∀ n, o = some n → s' = none ∧ astNodeDirectives n = some s ∧
      (dirListOk s = true → noStrayDirective n = true)) := by
  simp only [ast_parse_root_export_decl, ast_expect_token] at h
  repeat' split at h
  all_goals first
    | exact Except.noConfusion h
    | (simp only [Except.ok.injEq, Prod.mk.injEq] at h
       obtain ⟨ho, hj, hs⟩ := h
       subst ho
       subst hs
       constructor
       · intro hno
         first
           | rfl
           | exact Option.noConfusion hno
       · intro n hn
         first
           | exact Option.noConfusion hn
           | (injection hn with hn
              subst hn
              exact ⟨rfl, rfl, fun hok => by
                simp only [noStrayDirective]
                exact hok⟩))

theorem use_props (pc : ParseContext)
    (s : Option (List AstNode)) (i : Nat)
    (o : Option AstNode) (j : Nat) (s' : Option (List AstNode))
    (h : ast_parse_use pc s i = Except.ok (o, j, s')) :
    (o = none → s' = s) ∧
    (∀ n, o = some n → s' = none ∧ astNodeDirectives n = some s ∧
      (dirListOk s = true → noStrayDirective n = true)) := by
  simp only [ast_parse_use, ast_expect_token] at h
  repeat' split at h
  all_goals first
    | exact Except.noConfusion h
    | (simp only [Except.ok.injEq, Prod.mk.injEq] at h
       obtain ⟨ho, hj, hs⟩ := h
       subst ho
       subst hs
       constructor
       · intro hno
         first
           | rfl
           | exact Option.noConfusion hno
       · intro n hn
         first
           | exact Option.noConfusion hn
           | (injection hn with hn
              subst hn
              exact ⟨rfl, rfl, fun hok => by
                simp only [noStrayDirective]
                exact hok⟩))

theorem extern_loop_props (pc : ParseContext) :
    ∀ (fuel i : Nat) (acc decls : List AstNode) (j : Nat)
      (s' : Option (List AstNode)),
      acc.all noStrayDirective = true →
      ast_parse_extern_block_loop fuel pc none i acc = Except.ok (decls, j, s') →
      decls.all noStrayDirective = true ∧ s' = none := by
  intro fuel
  induction fuel with
  | zero =>
    intro i acc decls j s' _ h
    exact absurd h (by simp [ast_parse_extern_block_loop])
  | succ f ih =>
    intro i acc decls j s' hacc h
    simp only [ast_parse_extern_block_loop] at h
    split at h
    · exact absurd h (by simp)
    · rename_i ds j1 hds
      split at h
      · split at h
        · exact absurd h (by simp)
        · simp only [Except.ok.injEq, Prod.mk.injEq] at h
          obtain ⟨hdecls, hj, hs⟩ := h
          subst hdecls; subst hs
          exact ⟨hacc, rfl⟩
      · split at h
        · exact absurd h (by simp)
        · rename_i child j2 dl hchild
          have hall := directives_all_directive pc f i [] ds j1 rfl hds
          obtain ⟨hdl, hns⟩ := fn_decl_props f pc (some ds) j1 child j2 dl hchild
          subst hdl
          refine ih j2 (acc ++ [child]) decls j s' ?_ h
          simp_all [List.all_append, dirListOk]

theorem extern_block_props (fuel : Nat) (pc : ParseContext)
    (s : Option (List AstNode)) (i : Nat) (m : Bool)
    (o : Option AstNode) (j : Nat) (s' : Option (List AstNode))
    (h : ast_parse_extern_block fuel pc s i m = Except.ok (o, j, s')) :
    (o = none → s' = s) ∧
    (∀ n, o = some n → s' = none ∧ astNodeDirectives n = some s ∧
      (dirListOk s = true → noStrayDirective n = true)) := by
  cases fuel with
  | zero => exact absurd h (by simp [ast_parse_extern_block])
  | succ f =>
    simp only [ast_parse_extern_block, ast_expect_token] at h
    split at h
    · split at h
      · exact absurd h (by simp)
      · simp only [Except.ok.injEq, Prod.mk.injEq] at h
        obtain ⟨ho, hj, hs⟩ := h
        subst ho; subst hs
        exact ⟨fun _ => rfl, fun n hn => Option.noConfusion hn⟩
    · split at h
      · exact absurd h (by simp)
      · split at h
        · exact absurd h (by simp)
        · rename_i fnDecls j1 dl hloop
          simp only [Except.ok.injEq, Prod.mk.injEq] at h
          obtain ⟨ho, hj, hs⟩ := h
          subst ho; subst hs
          obtain ⟨hall, hdl⟩ :=
            extern_loop_props pc f (i + 2) [] fnDecls j1 dl rfl hloop
          constructor
          · intro hno; exact Option.noConfusion hno
          · intro n hn
            injection hn with hn
            subst hn
            refine ⟨hdl, rfl, fun hok => ?_⟩
            simp only [noStrayDirective, noStrayDirectiveList_eq_all,
              Bool.and_eq_true]
            exact ⟨hok, hall⟩

theorem top_level_props (pc : ParseContext) :
    ∀ (fuel i : Nat) (acc decls : List AstNode) (j : Nat)
      (s' : Option (List AstNode)),
      acc.all noStrayDirective = true →
      ast_parse_top_level_decls fuel pc none i acc = Except.ok (decls, j, s') →
      decls.all noStrayDirective = true ∧ s' = none := by
  intro fuel
  induction fuel with
  | zero =>
    intro i acc decls j s' _ h
    exact absurd h (by simp [ast_parse_top_level_decls])
  | succ f ih =>
    intro i acc decls j s' hacc h
    simp only [ast_parse_top_level_decls] at h
    split at h
    · exact absurd h (by simp)
    · rename_i ds i1 hds
      have hall := directives_all_directive pc f i [] ds i1 rfl hds
      have hok : dirListOk (some ds) = true := by simp [dirListOk, hall]
      split at h
      · exact absurd h (by simp)
      · rename_i node i2 dl hmatch
        obtain ⟨hdl, _, hns⟩ :=
          (root_export_props pc (some ds) i1 (some node) i2 dl hmatch).2 node rfl
        subst hdl
        exact ih i2 (acc ++ [node]) decls j s'
          (by simp_all [List.all_append]) h
      · rename_i i2 dl hmatch
        have hdl := (root_export_props pc (some ds) i1 none i2 dl hmatch).1 rfl
        subst hdl
        split at h
        · exact absurd h (by simp)
        · rename_i node i3 dl2 hmatch2
          obtain ⟨hdl2, hns⟩ :=
            (fn_def_props f pc (some ds) i2 false (some node) i3 dl2 hmatch2).2
              node rfl
          subst hdl2
          exact ih i3 (acc ++ [node]) decls j s'
            (by simp_all [List.all_append]) h
        · rename_i i3 dl2 hmatch2
          have hdl2 :=
            (fn_def_props f pc (some ds) i2 false none i3 dl2 hmatch2).1 rfl
          subst hdl2
          split at h
          · exact absurd h (by simp)
          · rename_i node i4 dl3 hmatch3
            obtain ⟨hdl3, _, hns⟩ :=
              (extern_block_props f pc (some ds) i3 false (some node) i4 dl3
                hmatch3).2 node rfl
            subst hdl3
            exact ih i4 (acc ++ [node]) decls j s'
              (by simp_all [List.all_append]) h
          · rename_i i4 dl3 hmatch3
            have hdl3 :=
              (extern_block_props f pc (some ds) i3 false none i4 dl3
                hmatch3).1 rfl
            subst hdl3
            split at h
            · exact absurd h (by simp)
            · rename_i node i5 dl4 hmatch4
              obtain ⟨hdl4, _, hns⟩ :=
                (use_props pc (some ds) i4 (some node) i5 dl4 hmatch4).2 node rfl
              subst hdl4
              exact ih i5 (acc ++ [node]) decls j s'
                (by simp_all [List.all_append]) h
            · split at h
              · exact absurd h (by simp)
              · simp only [Except.ok.injEq, Prod.mk.injEq] at h
                obtain ⟨hdecls, hj, hs⟩ := h
                subst hdecls; subst hs
                exact ⟨hacc, rfl⟩

theorem root_noStray (fuel : Nat) (pc : ParseContext) (i : Nat)
    (r : AstNode) (j : Nat)
    (h : ast_parse_root fuel pc i = Except.ok (r, j)) :
    noStrayDirective r = true := by
  cases fuel with
  | zero => exact absurd h (by simp [ast_parse_root])
  | succ f =>
    simp only [ast_parse_root] at h
    split at h
    · exact absurd h (by simp)
    · rename_i decls j1 dl htld
      split at h
      · exact absurd h (by simp)
      · simp only [Except.ok.injEq, Prod.mk.injEq] at h
        obtain ⟨hr, hj⟩ := h
        subst hr
        obtain ⟨hall, _⟩ := top_level_props pc f i [] decls j1 dl rfl htld
        simp only [noStrayDirective, noStrayDirectiveList_eq_all]
        exact hall

/-- C7.  Directive attachment: when the pending slot holds a collected
list `ds`, each of the four declaration parsers that takes directives
(`FnProto`, `ExternBlock`, `RootExportDecl`, `Use`) attaches exactly
that list to the node it produces and clears the slot to null
immediately; and in any successfully parsed tree every `Directive` node
sits inside some declaration's directive list and nowhere else
(`noStrayDirective` holds for the root). -/
theorem c7_directive_attachment :
    (∀ (fuel : Nat) (pc : ParseContext) (ds : List AstNode) (i : Nat) (m : Bool)
        (n : AstNode) (j : Nat) (s' : Option (List AstNode)),
      ast_parse_fn_proto fuel pc (some ds) i m = Except.ok (some n, j, s') →
      astNodeDirectives n = some (some ds) ∧ s' = none)
    ∧ (∀ (fuel : Nat) (pc : ParseContext) (ds : List AstNode) (i : Nat)
        (m : Bool) (n : AstNode) (j : Nat) (s' : Option (List AstNode)),
      ast_parse_extern_block fuel pc (some ds) i m = Except.ok (some n, j, s') →
      astNodeDirectives n = some (some ds) ∧ s' = none)
    ∧ (∀ (pc : ParseContext) (ds : List AstNode) (i : Nat)
        (n : AstNode) (j : Nat) (s' : Option (List AstNode)),
      ast_parse_root_export_decl pc (some ds) i = Except.ok (some n, j, s') →
      astNodeDirectives n = some (some ds) ∧ s' = none)
    ∧ (∀ (pc : ParseContext) (ds : List AstNode) (i : Nat)
        (n : AstNode) (j : Nat) (s' : Option (List AstNode)),
      ast_parse_use pc (some ds) i = Except.ok (some n, j, s') →
      astNodeDirectives n = some (some ds) ∧ s' = none)
    ∧ (∀ (fuel : Nat) (buf : List Char) (toks : List Token) (r : AstNode)
        (j : Nat),
      ast_parse fuel buf toks = Except.ok (r, j) →
      noStrayDirective r = true) := by
  refine ⟨?_, ?_, ?_, ?_, ?_⟩
  · intro fuel pc ds i m n j s' h
    obtain ⟨hdl, hdirs, _⟩ :=
      (fn_proto_props fuel pc (some ds) i m (some n) j s' h).2 n rfl
    exact ⟨hdirs, hdl⟩
  · intro fuel pc ds i m n j s' h
    obtain ⟨hdl, hdirs, _⟩ :=
      (extern_block_props fuel pc (some ds) i m (some n) j s' h).2 n rfl
    exact ⟨hdirs, hdl⟩
  · intro pc ds i n j s' h
    obtain ⟨hdl, hdirs, _⟩ :=
      (root_export_props pc (some ds) i (some n) j s' h).2 n rfl
    exact ⟨hdirs, hdl⟩
  · intro pc ds i n j s' h
    obtain ⟨hdl, hdirs, _⟩ :=
      (use_props pc (some ds) i (some n) j s' h).2 n rfl
    exact ⟨hdirs, hdl⟩
  · intro fuel buf toks r j h
    exact root_noStray fuel ⟨buf, toks⟩ 0 r j h

/-- Witness for C7: concrete attachment for each of the four declaration
kinds (the produced node holds exactly the pending list and the slot
comes back null), and the parsed tree of `#foo("x") fn f() {}` has its
single Directive node exactly in the proto's directive list. -/
theorem c7_directive_attachment_witness :
    (astNodeDirectives (AstNode.fnProto 1 1 FnProtoVisibMod.visibPrivate ['f']
        [] (AstNode.typePrimitive 1 7 "void".toList) (some [])) =
        some (some []) ∧ (none : Option (List AstNode)) = none)
    ∧ (astNodeDirectives (AstNode.externBlock 1 1 (some []) []) =
        some (some []) ∧ (none : Option (List AstNode)) = none)
    ∧ (astNodeDirectives (AstNode.rootExportDecl 1 1 ['e', 'x', 'e'] ['h']
        (some [])) = some (some []) ∧ (none : Option (List AstNode)) = none)
    ∧ (astNodeDirectives (AstNode.use 1 1 ['a'] (some [])) = some (some [])
      ∧ (none : Option (List AstNode)) = none)
    ∧ noStrayDirective (AstNode.root 1 1 [AstNode.fnDef 1 11
        (AstNode.fnProto 1 11 FnProtoVisibMod.visibPrivate ['f'] []
          (AstNode.typePrimitive 1 18 "void".toList)
          (some [AstNode.directive 1 1 ['f', 'o', 'o'] ['x']]))
        (AstNode.block 1 18 [])]) = true := by
  refine ⟨?_, ?_, ?_, ?_, ?_⟩
  · exact c7_directive_attachment.1 100 pcFnVoid [] 0 false _ 4 none rfl
  · exact c7_directive_attachment.2.1 100 pcExternW [] 0 false _ 3 none rfl
  · exact c7_directive_attachment.2.2.1 pcExportW [] 0 _ 4 none rfl
  · exact c7_directive_attachment.2.2.2.1 pcUseW [] 0 _ 3 none rfl
  · exact c7_directive_attachment.2.2.2.2 100 pcDirFn.buf pcDirFn.tokens _ 11 rfl
